import Mathlib

set_option maxHeartbeats 1000000

/-! # Verification of the token-prices change-log engine and pricing client

Shallow embedding of `src/utils/storage.ts` (diff engine, change-log replay)
and `src/npm/client.ts` (caching pricing client).  Modelling conventions:
JS numbers are rationals, `YYYY-MM-DD` date strings are integer day numbers
(string comparison of well-formed dates agrees with chronological order),
JS `Map`s / plain object records are association lists with JS `Map`
semantics (`set` overwrites in place, `delete` removes, iteration in
insertion order). -/

/-- Association-list model of a JS `Map` with string keys. -/
abbrev Jmap (α : Type) : Type := List (String × α)

/-- `Map.get` / object indexing: first (only) entry with the key. -/
def mapGet {α : Type} (m : Jmap α) (k : String) : Option α :=
  (m.find? (fun p => decide (p.1 = k))).map Prod.snd

/-- `Map.set`: overwrite in place if the key is present, else append. -/
def mapSet {α : Type} : Jmap α → String → α → Jmap α
  | [], k, v => [(k, v)]
  | p :: rest, k, v =>
    if p.1 = k then (k, v) :: rest else p :: mapSet rest k v

/-- `Map.delete`: remove the entry with the key. -/
def mapDelete {α : Type} (m : Jmap α) (k : String) : Jmap α :=
  m.filter (fun p => decide (p.1 ≠ k))

/-- `new Map(list)`: later entries win, first-occurrence order kept. -/
def mapFromList {α : Type} (l : List (String × α)) : Jmap α :=
  l.foldl (fun m p => mapSet m p.1 p.2) []

/-- The keys of a map, in iteration order. -/
def keysOf {α : Type} (m : Jmap α) : List String := m.map Prod.fst

/-- Maps built by `mapSet`/`mapDelete` from `[]` have pairwise distinct keys. -/
def NodupKeys {α : Type} (m : Jmap α) : Prop := (keysOf m).Nodup

structure ModelPricing where
  modelId : String
  modelName : String
  inputPricePerMillion : Rat
  outputPricePerMillion : Rat
  cachedInputPricePerMillion : Option Rat
  contextWindow : Option Nat
  maxOutputTokens : Option Nat
  metadata : Option String
deriving DecidableEq, Repr

inductive ChangeType where
  | added
  | removed
  | updated
deriving DecidableEq, Repr

structure PriceChange where
  date : String
  changeType : ChangeType
  pricing : ModelPricing
  previousPricing : Option ModelPricing
deriving DecidableEq, Repr

structure ProviderPriceHistory where
  provider : String
  lastCrawled : String
  pricingUrl : String
  changes : List PriceChange
deriving DecidableEq, Repr

structure ProviderPriceSnapshot where
  provider : String
  date : String
  models : List ModelPricing
deriving DecidableEq, Repr

/-! ## Diff engine and replay (src/utils/storage.ts) -/

/-- `arePricingsEqual` (storage.ts:89-98): field-by-field equality on
model id, the two base prices, cached price, context window and max
output tokens; `modelName` and `metadata` are not compared. -/
def arePricingsEqual (a b : ModelPricing) : Bool :=
  decide (a.modelId = b.modelId) &&
  decide (a.inputPricePerMillion = b.inputPricePerMillion) &&
  decide (a.outputPricePerMillion = b.outputPricePerMillion) &&
  decide (a.cachedInputPricePerMillion = b.cachedInputPricePerMillion) &&
  decide (a.contextWindow = b.contextWindow) &&
  decide (a.maxOutputTokens = b.maxOutputTokens)

/-- `detectChanges` (storage.ts:103-146).  The two pushes-inside-loops are
rendered as `filterMap` over the two maps in iteration order, appended in
the source's order (added/updated first, then removed). -/
def detectChanges (currentPrices newPrices : List ModelPricing)
    (date : String) : List PriceChange :=
  let currentMap := mapFromList (currentPrices.map (fun p => (p.modelId, p)))
  let newMap := mapFromList (newPrices.map (fun p => (p.modelId, p)))
  (newMap.filterMap (fun kv =>
    match mapGet currentMap kv.1 with
    | none =>
      some { date := date, changeType := .added, pricing := kv.2,
             previousPricing := none }
    | some currentPricing =>
      if arePricingsEqual currentPricing kv.2 then none
      else
        some { date := date, changeType := .updated, pricing := kv.2,
               previousPricing := some currentPricing }))
  ++ (currentMap.filterMap (fun kv =>
    if (mapGet newMap kv.1).isSome then none
    else
      some { date := date, changeType := .removed, pricing := kv.2,
             previousPricing := none }))

/-- One step of the replay loop in `getCurrentSnapshot` (storage.ts:67-77). -/
def replayStep (m : Jmap ModelPricing) (change : PriceChange) : Jmap ModelPricing :=
  match change.changeType with
  | .added => mapSet m change.pricing.modelId change.pricing
  | .updated => mapSet m change.pricing.modelId change.pricing
  | .removed => mapDelete m change.pricing.modelId

/-- The `modelsMap` accumulated by `getCurrentSnapshot`. -/
def replayMap (changes : List PriceChange) : Jmap ModelPricing :=
  changes.foldl replayStep []

/-- `getCurrentSnapshot` (storage.ts:62-84). -/
def getCurrentSnapshot (history : ProviderPriceHistory) : ProviderPriceSnapshot :=
  { provider := history.provider, date := history.lastCrawled,
    models := (replayMap history.changes).map Prod.snd }

/-- `updateProviderPrices` (storage.ts:152-193), with the file-system
read/write at the boundary made explicit: the stored history (or `none`)
comes in, the history to be written goes out together with the returned
changes.  `now`/`today` stand for `new Date().toISOString()` and its date
part. -/
def updateProviderPrices (provider pricingUrl : String)
    (newPrices : List ModelPricing) (now today : String)
    (stored : Option ProviderPriceHistory) :
    ProviderPriceHistory × List PriceChange :=
  match stored with
  | none =>
    let changes : List PriceChange := newPrices.map (fun pricing =>
      { date := today, changeType := .added, pricing := pricing,
        previousPricing := none })
    ({ provider := provider, lastCrawled := now, pricingUrl := pricingUrl,
       changes := changes }, changes)
  | some history =>
    let currentSnapshot := getCurrentSnapshot history
    let changes := detectChanges currentSnapshot.models newPrices today
    let written : ProviderPriceHistory :=
      { provider := history.provider, lastCrawled := now,
        pricingUrl := history.pricingUrl,
        changes := history.changes ++ changes }
    (written, changes)

/-- The model ids of a price list, in order. -/
def modelIds (l : List ModelPricing) : List String := l.map ModelPricing.modelId

/-- The key/value list `prices.map(p => [p.modelId, p])` fed to `new Map`. -/
def keyed (l : List ModelPricing) : Jmap ModelPricing :=
  l.map (fun p => (p.modelId, p))

def isEventFor (m : String) (c : PriceChange) : Bool :=
  decide (c.pricing.modelId = m)

def isAddedFor (m : String) (c : PriceChange) : Bool :=
  decide (c.changeType = ChangeType.added) && decide (c.pricing.modelId = m)

def isRemovedFor (m : String) (c : PriceChange) : Bool :=
  decide (c.changeType = ChangeType.removed) && decide (c.pricing.modelId = m)

def isUpdatedFor (m : String) (c : PriceChange) : Bool :=
  decide (c.changeType = ChangeType.updated) && decide (c.pricing.modelId = m)

/-- The added/updated branch of the first `detectChanges` loop, as a
function of the new-price record. -/
def diffAddFn (A : List ModelPricing) (d : String) (q : ModelPricing) :
    Option PriceChange :=
  match mapGet (keyed A) q.modelId with
  | none =>
    some { date := d, changeType := .added, pricing := q,
           previousPricing := none }
  | some cur =>
    if arePricingsEqual cur q then none
    else
      some { date := d, changeType := .updated, pricing := q,
             previousPricing := some cur }

/-- The removed branch of the second `detectChanges` loop. -/
def diffRemoveFn (B : List ModelPricing) (d : String) (cur : ModelPricing) :
    Option PriceChange :=
  if (mapGet (keyed B) cur.modelId).isSome then none
  else
    some { date := d, changeType := .removed, pricing := cur,
           previousPricing := none }

def sampleKeepOld : ModelPricing :=
  { modelId := "keep", modelName := "Keep v1", inputPricePerMillion := 1,
    outputPricePerMillion := 2, cachedInputPricePerMillion := none,
    contextWindow := none, maxOutputTokens := none, metadata := none }

def sampleKeepNew : ModelPricing :=
  { modelId := "keep", modelName := "Keep v2", inputPricePerMillion := 1,
    outputPricePerMillion := 5, cachedInputPricePerMillion := none,
    contextWindow := none, maxOutputTokens := none, metadata := none }

def sampleGone : ModelPricing :=
  { modelId := "gone", modelName := "Gone", inputPricePerMillion := 3,
    outputPricePerMillion := 4, cachedInputPricePerMillion := none,
    contextWindow := none, maxOutputTokens := none, metadata := none }

def sampleNew : ModelPricing :=
  { modelId := "new", modelName := "New", inputPricePerMillion := 7,
    outputPricePerMillion := 8, cachedInputPricePerMillion := some 1,
    contextWindow := some 128000, maxOutputTokens := none, metadata := none }

def sampleA : List ModelPricing := [sampleKeepOld, sampleGone]

def sampleB : List ModelPricing := [sampleKeepNew, sampleNew]

/-- The added/updated branch of `detectChanges`, parameterised over the
current-snapshot map (as the source's first loop is). -/
def addFn (currentMap : Jmap ModelPricing) (d : String)
    (kv : String × ModelPricing) : Option PriceChange :=
  match mapGet currentMap kv.1 with
  | none =>
    some { date := d, changeType := .added, pricing := kv.2,
           previousPricing := none }
  | some cur =>
    if arePricingsEqual cur kv.2 then none
    else
      some { date := d, changeType := .updated, pricing := kv.2,
             previousPricing := some cur }

/-- The removed branch of `detectChanges`, parameterised over the new map. -/
def removeFn (newMap : Jmap ModelPricing) (d : String)
    (kv : String × ModelPricing) : Option PriceChange :=
  if (mapGet newMap kv.1).isSome then none
  else
    some { date := d, changeType := .removed, pricing := kv.2,
           previousPricing := none }

/-- Every map entry's value carries the entry's key as its model id. -/
def PricingKeyed (m : Jmap ModelPricing) : Prop :=
  ∀ p ∈ m, p.2.modelId = p.1

/-- The last logged event mentioning a given model id. -/
def lastChangeFor (m : String) (es : List PriceChange) : Option PriceChange :=
  (es.filter (fun c => decide (c.pricing.modelId = m))).getLast?

def replayRec : ModelPricing :=
  { modelId := "alpha", modelName := "Alpha", inputPricePerMillion := 1,
    outputPricePerMillion := 2, cachedInputPricePerMillion := none,
    contextWindow := none, maxOutputTokens := none, metadata := none }

def ghostRec : ModelPricing :=
  { modelId := "ghost", modelName := "Ghost", inputPricePerMillion := 9,
    outputPricePerMillion := 9, cachedInputPricePerMillion := none,
    contextWindow := none, maxOutputTokens := none, metadata := none }

def spuriousRemoved : PriceChange :=
  { date := "2025-01-03", changeType := .removed, pricing := ghostRec,
    previousPricing := none }

def replayHistory : ProviderPriceHistory :=
  { provider := "prov", lastCrawled := "2025-01-02T00:00:00Z",
    pricingUrl := "https://example.test/pricing",
    changes := [{ date := "2025-01-01", changeType := .added,
                  pricing := replayRec, previousPricing := none }] }

structure NpmModelPricing where
  input : Option Rat
  output : Option Rat
  cached : Option Rat
  context : Option Int
  maxOutput : Option Int
deriving DecidableEq, Repr

structure DeprecationInfo where
  since : String
  dataFrozenAt : String
  message : String
  upgradeGuide : Option String
deriving DecidableEq, Repr

structure ProviderData where
  date : Int
  models : Jmap NpmModelPricing
deriving DecidableEq, Repr

structure ProviderFile where
  current : ProviderData
  previous : Option ProviderData
  deprecated : Option DeprecationInfo
deriving DecidableEq, Repr

structure CacheEntry where
  data : ProviderFile
  fetchedDate : Int
deriving DecidableEq, Repr

inductive ClientError where
  | providerNotFound (provider : String)
  | modelNotFound (provider modelId : String) (available : List String)
  | unsupportedPricingModel (modelId : String)
  | clockMismatch (clientDate dataDate daysDiff : Int)
  | fetchFailed (provider : String)
  | transport (msg : String)
deriving DecidableEq, Repr

/-- Outcome of the outbound fetch step at client.ts:283-294.  `thrown`
covers a rejected `fetchFn` promise (e.g. a dead network) and a throwing
`response.json()`: neither is wrapped in a try/catch in the source, so
both bypass the cache fallback; `notOk` is a resolved response with
`!response.ok`; `ok` is a usable body. -/
inductive FetchResult where
  | thrown (msg : String)
  | notOk
  | ok (data : ProviderFile)
deriving DecidableEq, Repr

structure ClientConfig where
  offline : Bool
  customProviders : Jmap (Jmap NpmModelPricing)
deriving DecidableEq, Repr

structure ClientState where
  cache : Jmap CacheEntry
  extCache : Option (Jmap CacheEntry)
deriving DecidableEq, Repr

structure FetchOutput where
  result : Except ClientError ProviderFile
  state : ClientState
  fetched : Bool

/-- `daysDifference` (client.ts:39-43) at day granularity. -/
def daysDifference (dateA dateB : Int) : Int := dateA - dateB

/-- `modelId.includes('/')`. -/
def containsSlash (s : String) : Bool := s.data.any (fun c => decide (c = '/'))

/-- `modelId.split('/')[0]`. -/
def firstSegment (s : String) : String :=
  String.mk (s.data.takeWhile (fun c => decide (c ≠ '/')))

/-- `isBuiltInProvider` (client.ts:112-115). -/
def isBuiltInProvider (provider : String) : Bool :=
  (["openai", "anthropic", "google", "openrouter"] : List String).contains provider
    || "openrouter/".data.isPrefixOf provider.data

/-- The sub-provider extraction at the top of `fetchProvider`
(client.ts:227-232). -/
def effectiveProviderOf (provider : String) (modelId : Option String) : String :=
  match modelId with
  | some mid =>
    if decide (provider = "openrouter") && containsSlash mid then
      "openrouter/" ++ firstSegment mid
    else provider
  | none => provider

/-- Object spread `{ ...base, ...extra }`: extra wins on key collision. -/
def jsMerge {α : Type} (base extra : Jmap α) : Jmap α :=
  extra.foldl (fun m p => mapSet m p.1 p.2) base

/-- `getCustomProviderFile` (client.ts:190-200). -/
def getCustomProviderFile (cfg : ClientConfig) (today : Int)
    (provider : String) : Option ProviderFile :=
  (mapGet cfg.customProviders provider).map (fun customModels =>
    { current := { date := today, models := customModels },
      previous := none, deprecated := none })

/-- `mergeCustomData` (client.ts:205-219). -/
def mergeCustomData (cfg : ClientConfig) (file : ProviderFile)
    (provider : String) : ProviderFile :=
  match mapGet cfg.customProviders provider with
  | none => file
  | some customModels =>
    { current := { date := file.current.date,
                   models := jsMerge file.current.models customModels },
      previous := file.previous, deprecated := file.deprecated }

/-- The in-memory-then-external cache lookup (client.ts:262-273):
returns the resolved entry and the state (the in-memory map is populated
from the external cache on an in-memory miss). -/
def resolveCached (st : ClientState) (eff : String) :
    Option CacheEntry × ClientState :=
  match mapGet st.cache eff with
  | some e => (some e, st)
  | none =>
    match st.extCache with
    | some ext =>
      match mapGet ext eff with
      | some e => (some e, { cache := mapSet st.cache eff e,
                             extCache := st.extCache })
      | none => (none, st)
    | none => (none, st)

/-- The fetch-and-validate tail of `fetchProvider` (client.ts:281-315):
one outbound fetch, then — exactly as in the source — a thrown fetch or
JSON-parse error propagates untouched (there is no try/catch around
client.ts:283 or 294, so the cache entry is NOT consulted), a non-ok
response falls back to the cache entry when one exists, and an ok body
goes through the two clock checks and the cache write on acceptance. -/
def fetchAndValidate (cfg : ClientConfig) (st1 : ClientState) (today : Int)
    (fetchRes : String → FetchResult) (provider eff : String)
    (cached : Option CacheEntry) : FetchOutput :=
  match fetchRes eff with
  | .thrown msg =>
    { result := .error (.transport msg), state := st1, fetched := true }
  | .notOk =>
    match cached with
    | some e =>
      { result := .ok (mergeCustomData cfg e.data provider), state := st1,
        fetched := true }
    | none =>
      { result := .error (.fetchFailed eff), state := st1, fetched := true }
  | .ok data =>
    let daysDiff := daysDifference today data.current.date
    if daysDiff < 0 then
      { result := .error (.clockMismatch today data.current.date daysDiff),
        state := st1, fetched := true }
    else if 1 < daysDiff then
      { result := .error (.clockMismatch today data.current.date daysDiff),
        state := st1, fetched := true }
    else
      { result := .ok (mergeCustomData cfg data provider),
        state := { cache := mapSet st1.cache eff
                     { data := data, fetchedDate := today },
                   extCache := st1.extCache.map (fun ext =>
                     mapSet ext eff { data := data, fetchedDate := today }) },
        fetched := true }

/-- `fetchProvider` (client.ts:226-316). -/
def fetchProvider (cfg : ClientConfig) (st : ClientState) (today : Int)
    (fetchRes : String → FetchResult) (provider : String)
    (modelId : Option String) : FetchOutput :=
  let eff := effectiveProviderOf provider modelId
  if cfg.offline then
    match getCustomProviderFile cfg today provider with
    | some f => { result := .ok f, state := st, fetched := false }
    | none =>
      { result := .error (.providerNotFound provider), state := st,
        fetched := false }
  else
    if isBuiltInProvider eff then
      match resolveCached st eff with
      | (some e, st1) =>
        if e.fetchedDate = today then
          { result := .ok (mergeCustomData cfg e.data provider), state := st1,
            fetched := false }
        else fetchAndValidate cfg st1 today fetchRes provider eff (some e)
      | (none, st1) => fetchAndValidate cfg st1 today fetchRes provider eff none
    else
      match getCustomProviderFile cfg today provider with
      | some f => { result := .ok f, state := st, fetched := false }
      | none =>
        { result := .error (.providerNotFound provider), state := st,
          fetched := false }

structure PriceLookupResult where
  provider : String
  modelId : String
  pricing : NpmModelPricing
  date : Int
  stale : Bool
deriving DecidableEq, Repr

/-- `getEffectiveData` (client.ts:321-325): always the `current` block. -/
def getEffectiveData (file : ProviderFile) : ProviderData := file.current

/-- `getModelPricing` (client.ts:335-358). -/
def getModelPricing (cfg : ClientConfig) (st : ClientState) (today : Int)
    (fetchRes : String → FetchResult) (provider modelId : String) :
    Except ClientError PriceLookupResult × ClientState :=
  let out := fetchProvider cfg st today fetchRes provider (some modelId)
  match out.result with
  | .error e => (.error e, out.state)
  | .ok file =>
    let data := getEffectiveData file
    match mapGet data.models modelId with
    | none =>
      (.error (.modelNotFound provider modelId (keysOf data.models)), out.state)
    | some pricing =>
      (.ok { provider := provider, modelId := modelId, pricing := pricing,
             date := data.date, stale := decide (data.date < today) },
        out.state)

/-- `getModelPricingOrNull` (client.ts:363-372): the source's bare
`catch` returns `null` whatever the failure was, so the function itself
never fails. -/
def getModelPricingOrNull (cfg : ClientConfig) (st : ClientState)
    (today : Int) (fetchRes : String → FetchResult)
    (provider modelId : String) :
    Except ClientError (Option PriceLookupResult) × ClientState :=
  match getModelPricing cfg st today fetchRes provider modelId with
  | (.ok r, st2) => (.ok (some r), st2)
  | (.error _, st2) => (.ok none, st2)

structure TokenCounts where
  inputTokens : Rat
  outputTokens : Rat
  cachedInputTokens : Option Rat
deriving DecidableEq, Repr

structure CostResult where
  inputCost : Rat
  outputCost : Rat
  totalCost : Rat
  usedCachedPricing : Bool
  date : Int
  stale : Bool
deriving DecidableEq, Repr

/-- `calculateCost` (client.ts:400-443). -/
def calculateCost (cfg : ClientConfig) (st : ClientState) (today : Int)
    (fetchRes : String → FetchResult) (provider modelId : String)
    (tokens : TokenCounts) : Except ClientError CostResult × ClientState :=
  match getModelPricing cfg st today fetchRes provider modelId with
  | (.error e, st2) => (.error e, st2)
  | (.ok r, st2) =>
    match r.pricing.input, r.pricing.output with
    | some inp, some outp =>
      let cachedInputTokens := tokens.cachedInputTokens.getD 0
      let regularInputTokens := tokens.inputTokens - cachedInputTokens
      let usedCachedPricing :=
        decide (0 < cachedInputTokens) && r.pricing.cached.isSome
      let inputCost := (regularInputTokens / 1000000) * inp
        + (match r.pricing.cached with
           | some cprice =>
             if usedCachedPricing then (cachedInputTokens / 1000000) * cprice
             else (cachedInputTokens / 1000000) * inp
           | none => (cachedInputTokens / 1000000) * inp)
      let outputCost := (tokens.outputTokens / 1000000) * outp
      (.ok { inputCost := inputCost, outputCost := outputCost,
             totalCost := inputCost + outputCost,
             usedCachedPricing := usedCachedPricing, date := r.date,
             stale := r.stale }, st2)
    | _, _ => (.error (.unsupportedPricingModel modelId), st2)

def offlineCfg : ClientConfig := { offline := true, customProviders := [] }

def emptyClientState : ClientState := { cache := [], extCache := none }

def noFetch : String → FetchResult := fun _ => FetchResult.notOk

def thrownFetch : String → FetchResult :=
  fun _ => FetchResult.thrown "network down"

def staleCfg : ClientConfig :=
  { offline := true,
    customProviders :=
      [("prov", [("m", { input := some 1, output := some 2, cached := none,
                         context := none, maxOutput := none })])] }

def staleLookupRes : PriceLookupResult :=
  { provider := "prov", modelId := "m",
    pricing := { input := some 1, output := some 2, cached := none,
                 context := none, maxOutput := none },
    date := 5, stale := false }

def onlineCfg : ClientConfig := { offline := false, customProviders := [] }

def c4File : ProviderFile :=
  { current := { date := 12, models := [] }, previous := none,
    deprecated := none }

def c4Fetch : String → FetchResult := fun _ => FetchResult.ok c4File

def c6Pricing : NpmModelPricing :=
  { input := some 1, output := some 2, cached := none, context := none,
    maxOutput := none }

def c6StaleData : ProviderData := { date := -3, models := [("m", c6Pricing)] }

def c6StaleFile : ProviderFile :=
  { current := c6StaleData, previous := none, deprecated := none }

def c6StaleEntry : CacheEntry := { data := c6StaleFile, fetchedDate := -3 }

def c6State : ClientState :=
  { cache := [("openai", c6StaleEntry)], extCache := none }

def orPricing : NpmModelPricing :=
  { input := some 1, output := some 2, cached := none, context := none,
    maxOutput := none }

def orData : ProviderData :=
  { date := 0, models := [("anthropic/claude-3.5-sonnet", orPricing)] }

def orFile : ProviderFile :=
  { current := orData, previous := none, deprecated := none }

def orEntry : CacheEntry := { data := orFile, fetchedDate := 0 }

def orState : ClientState :=
  { cache := [("openrouter", orEntry)], extCache := none }

def c7Data : ProviderData := { date := 0, models := [] }

def c7File : ProviderFile :=
  { current := c7Data, previous := none, deprecated := none }

def c7Fetch : String → FetchResult := fun _ => FetchResult.ok c7File

def c10OldData : ProviderData := { date := -1, models := [] }

def c10OldFile : ProviderFile :=
  { current := c10OldData, previous := none, deprecated := none }

def c10ExtEntry : CacheEntry := { data := c10OldFile, fetchedDate := -1 }

def c10State : ClientState :=
  { cache := [], extCache := some [("openai", c10ExtEntry)] }

def c10FutureData : ProviderData := { date := 5, models := [] }

def c10FutureFile : ProviderFile :=
  { current := c10FutureData, previous := none, deprecated := none }

def c10Fetch : String → FetchResult := fun _ => FetchResult.ok c10FutureFile

/-- Written from the claim's cost formula (C3): cached input tokens are
priced at the record's cached price if present, else at the input price;
the remaining input tokens at the input price; output tokens at the
output price; all rates per million. -/
def claimInputCost (tokens : TokenCounts) (r : PriceLookupResult)
    (inp : Rat) : Rat :=
  ((tokens.inputTokens - tokens.cachedInputTokens.getD 0) / 1000000) * inp
    + ((tokens.cachedInputTokens.getD 0) / 1000000)
      * (match r.pricing.cached with
         | some cp => cp
         | none => inp)

/-- The cost result the claim's formulas prescribe. -/
def claimCostResult (tokens : TokenCounts) (r : PriceLookupResult)
    (inp outp : Rat) : CostResult :=
  { inputCost := claimInputCost tokens r inp,
    outputCost := (tokens.outputTokens / 1000000) * outp,
    totalCost := claimInputCost tokens r inp
      + (tokens.outputTokens / 1000000) * outp,
    usedCachedPricing := decide (0 < tokens.cachedInputTokens.getD 0)
      && r.pricing.cached.isSome,
    date := r.date,
    stale := r.stale }

def c3Pricing : NpmModelPricing :=
  { input := some 3, output := some 15, cached := some (3/10),
    context := none, maxOutput := none }

def c3Cfg : ClientConfig :=
  { offline := true, customProviders := [("prov", [("sonnet", c3Pricing)])] }

def c3Tokens : TokenCounts :=
  { inputTokens := 1000000, outputTokens := 0,
    cachedInputTokens := some 800000 }

def c3LookupRes : PriceLookupResult :=
  { provider := "prov", modelId := "sonnet", pricing := c3Pricing,
    date := 0, stale := false }

theorem mapGet_nil {α : Type} (k : String) : mapGet ([] : Jmap α) k = none := rfl

theorem mapGet_cons {α : Type} (p : String × α) (m : Jmap α) (k : String) :
    mapGet (p :: m) k = if p.1 = k then some p.2 else mapGet m k := by
  by_cases h : p.1 = k <;> simp [mapGet, List.find?, h]

theorem mapSet_cons_pos {α : Type} (p : String × α) (rest : Jmap α) (k : String) (v : α)
    (hp : p.1 = k) : mapSet (p :: rest) k v = (k, v) :: rest := by
  simp [mapSet, hp]

theorem mapSet_cons_neg {α : Type} (p : String × α) (rest : Jmap α) (k : String) (v : α)
    (hp : p.1 ≠ k) : mapSet (p :: rest) k v = p :: mapSet rest k v := by
  simp [mapSet, hp]

theorem mapDelete_nil {α : Type} (k : String) : mapDelete ([] : Jmap α) k = [] := rfl

theorem mapDelete_cons_pos {α : Type} (p : String × α) (rest : Jmap α) (k : String)
    (hp : p.1 = k) : mapDelete (p :: rest) k = mapDelete rest k := by
  simp [mapDelete, List.filter_cons, hp]

theorem mapDelete_cons_neg {α : Type} (p : String × α) (rest : Jmap α) (k : String)
    (hp : p.1 ≠ k) : mapDelete (p :: rest) k = p :: mapDelete rest k := by
  simp [mapDelete, List.filter_cons, hp]

theorem mapGet_mapSet {α : Type} (m : Jmap α) (k : String) (v : α) (k' : String) :
    mapGet (mapSet m k v) k' = if k' = k then some v else mapGet m k' := by
  induction m with
  | nil =>
    rcases eq_or_ne k' k with h | h
    · simp [mapSet, mapGet_cons, h]
    · simp [mapSet, mapGet_cons, h, Ne.symm h]
  | cons p rest ih =>
    by_cases hp : p.1 = k
    · rw [mapSet_cons_pos p rest k v hp]
      rcases eq_or_ne k' k with h | h
      · simp [mapGet_cons, h]
      · have hpk' : p.1 ≠ k' := by rw [hp]; exact Ne.symm h
        simp [mapGet_cons, h, Ne.symm h, hpk']
    · rw [mapSet_cons_neg p rest k v hp]
      rcases eq_or_ne k' k with h | h
      · subst h
        simp [mapGet_cons, hp, ih]
      · simp [mapGet_cons, ih, h]

theorem mapGet_mapDelete {α : Type} (m : Jmap α) (k k' : String) :
    mapGet (mapDelete m k) k' = if k' = k then none else mapGet m k' := by
  induction m with
  | nil => simp [mapDelete_nil, mapGet_nil]
  | cons p rest ih =>
    by_cases hp : p.1 = k
    · rw [mapDelete_cons_pos p rest k hp, ih]
      rcases eq_or_ne k' k with h | h
      · simp [h]
      · have hpk' : p.1 ≠ k' := by rw [hp]; exact Ne.symm h
        simp [h, mapGet_cons, hpk']
    · rw [mapDelete_cons_neg p rest k hp]
      rcases eq_or_ne k' k with h | h
      · subst h
        simp [mapGet_cons, hp, ih]
      · simp [mapGet_cons, ih, h]

theorem mem_keysOf_mapSet {α : Type} (m : Jmap α) (k : String) (v : α) (a : String) :
    a ∈ keysOf (mapSet m k v) ↔ a ∈ keysOf m ∨ a = k := by
  induction m with
  | nil => simp [mapSet, keysOf]
  | cons p rest ih =>
    by_cases hp : p.1 = k
    · rw [mapSet_cons_pos p rest k v hp]
      simp only [keysOf, List.map_cons, List.mem_cons, hp]
      tauto
    · rw [mapSet_cons_neg p rest k v hp]
      simp only [keysOf, List.map_cons, List.mem_cons] at ih ⊢
      rw [ih]
      tauto

theorem nodupKeys_mapSet {α : Type} (m : Jmap α) (k : String) (v : α)
    (h : NodupKeys m) : NodupKeys (mapSet m k v) := by
  induction m with
  | nil => simp [mapSet, NodupKeys, keysOf]
  | cons p rest ih =>
    simp only [NodupKeys, keysOf, List.map_cons, List.nodup_cons] at h
    by_cases hp : p.1 = k
    · rw [NodupKeys, mapSet_cons_pos p rest k v hp]
      simp only [keysOf, List.map_cons, List.nodup_cons]
      exact ⟨by rw [← hp]; exact h.1, h.2⟩
    · rw [NodupKeys, mapSet_cons_neg p rest k v hp]
      simp only [keysOf, List.map_cons, List.nodup_cons]
      refine ⟨?_, ih h.2⟩
      intro hmem
      have := (mem_keysOf_mapSet rest k v p.1).mp hmem
      rcases this with h1 | h1
      · exact h.1 h1
      · exact hp h1

theorem keysOf_mapDelete {α : Type} (m : Jmap α) (k : String) :
    keysOf (mapDelete m k) = (keysOf m).filter (fun a => decide (a ≠ k)) := by
  induction m with
  | nil => rfl
  | cons p rest ih =>
    simp only [keysOf, decide_not] at ih
    by_cases hp : p.1 = k
    · rw [mapDelete_cons_pos p rest k hp]
      simp [keysOf, List.filter_cons, hp, ih, decide_not]
    · rw [mapDelete_cons_neg p rest k hp]
      simp [keysOf, List.filter_cons, hp, ih, decide_not]

theorem nodupKeys_mapDelete {α : Type} (m : Jmap α) (k : String)
    (h : NodupKeys m) : NodupKeys (mapDelete m k) := by
  rw [NodupKeys, keysOf_mapDelete]
  exact List.Nodup.filter _ h

theorem nodupKeys_mapFromList {α : Type} (l : List (String × α)) :
    NodupKeys (mapFromList l) := by
  have : ∀ (m : Jmap α), NodupKeys m →
      NodupKeys (l.foldl (fun m p => mapSet m p.1 p.2) m) := by
    induction l with
    | nil => intro m hm; simpa using hm
    | cons p rest ih =>
      intro m hm
      exact ih _ (nodupKeys_mapSet m p.1 p.2 hm)
  simpa [mapFromList] using this [] (by simp [NodupKeys, keysOf])

theorem mapGet_eq_none_iff {α : Type} (m : Jmap α) (k : String) :
    mapGet m k = none ↔ k ∉ keysOf m := by
  rw [mapGet, Option.map_eq_none', List.find?_eq_none]
  simp only [keysOf, List.mem_map, decide_eq_true_eq]
  constructor
  · rintro h ⟨p, hp, hpk⟩
    exact h p hp hpk
  · intro h p hp hpk
    exact h ⟨p, hp, hpk⟩

theorem mapGet_eq_some_mem {α : Type} {m : Jmap α} {k : String} {v : α}
    (h : mapGet m k = some v) : (k, v) ∈ m := by
  rw [mapGet] at h
  obtain ⟨p, hfind, hsnd⟩ := Option.map_eq_some'.mp h
  have hmem := List.mem_of_find?_eq_some hfind
  have hkey : p.1 = k := by simpa using List.find?_some hfind
  have hpv : p = (k, v) := by
    cases p
    simp only at hkey hsnd
    simp [hkey, hsnd]
  rwa [hpv] at hmem

theorem mapGet_of_mem {α : Type} {m : Jmap α} {k : String} {v : α}
    (hm : NodupKeys m) (h : (k, v) ∈ m) : mapGet m k = some v := by
  induction m with
  | nil => cases h
  | cons p rest ih =>
    simp only [NodupKeys, keysOf, List.map_cons, List.nodup_cons] at hm
    rcases List.mem_cons.mp h with h1 | h1
    · rw [← h1, mapGet_cons]
      simp
    · have hk : k ∈ keysOf rest := by
        simp only [keysOf, List.mem_map]
        exact ⟨(k, v), h1, rfl⟩
      have hpk : p.1 ≠ k := fun hpe => hm.1 (by rw [hpe]; exact hk)
      rw [mapGet_cons]
      simp only [hpk, if_false]
      exact ih hm.2 h1

theorem mapSet_eq_append {α : Type} (m : Jmap α) (k : String) (v : α)
    (h : k ∉ keysOf m) : mapSet m k v = m ++ [(k, v)] := by
  induction m with
  | nil => rfl
  | cons p rest ih =>
    simp only [keysOf, List.map_cons, List.mem_cons] at h
    push_neg at h
    rw [mapSet_cons_neg p rest k v (fun he => h.1 he.symm)]
    rw [ih (by simpa [keysOf] using h.2)]
    simp

theorem foldl_mapSet_append {α : Type} : ∀ (l : List (String × α)) (m : Jmap α),
    (l.map Prod.fst).Nodup → (∀ p ∈ l, p.1 ∉ keysOf m) →
    l.foldl (fun m p => mapSet m p.1 p.2) m = m ++ l := by
  intro l
  induction l with
  | nil => intro m _ _; simp
  | cons p rest ih =>
    intro m hnodup hdisj
    simp only [List.map_cons, List.nodup_cons] at hnodup
    simp only [List.foldl_cons]
    rw [mapSet_eq_append m p.1 p.2 (hdisj p (List.mem_cons_self p rest))]
    rw [ih (m ++ [(p.1, p.2)]) hnodup.2 ?hd]
    · simp
    case hd =>
      intro q hq
      simp only [keysOf, List.map_append, List.mem_append]
      push_neg
      refine ⟨hdisj q (List.mem_cons_of_mem p hq), ?_⟩
      simp only [List.map_cons, List.map_nil, List.mem_singleton]
      intro he
      exact hnodup.1 (he ▸ List.mem_map_of_mem Prod.fst hq)

theorem mapFromList_eq_self {α : Type} (l : List (String × α))
    (h : (l.map Prod.fst).Nodup) : mapFromList l = l := by
  simpa [mapFromList] using foldl_mapSet_append l [] h (by simp [keysOf])

/-! ## Data model (src/types.ts)

`metadata` (`Record<string, unknown>`) is modelled as an opaque optional
string; the source never inspects it (it is excluded from comparison). -/

theorem keysOf_keyed (l : List ModelPricing) : keysOf (keyed l) = modelIds l := by
  simp only [keysOf, keyed, modelIds, List.map_map]
  rfl

theorem nodupKeys_keyed {l : List ModelPricing} (h : (modelIds l).Nodup) :
    NodupKeys (keyed l) := by
  rw [NodupKeys, keysOf_keyed]
  exact h

theorem mapGet_keyed_eq_none_iff (l : List ModelPricing) (k : String) :
    mapGet (keyed l) k = none ↔ k ∉ modelIds l := by
  rw [mapGet_eq_none_iff, keysOf_keyed]

theorem mapGet_keyed_of_mem {l : List ModelPricing} {q : ModelPricing}
    (h : (modelIds l).Nodup) (hq : q ∈ l) : mapGet (keyed l) q.modelId = some q := by
  refine mapGet_of_mem (nodupKeys_keyed h) ?_
  simp only [keyed, List.mem_map]
  exact ⟨q, hq, rfl⟩

theorem mapGet_keyed_mem {l : List ModelPricing} {k : String} {q : ModelPricing}
    (h : mapGet (keyed l) k = some q) : q ∈ l ∧ q.modelId = k := by
  have := mapGet_eq_some_mem h
  simp only [keyed, List.mem_map] at this
  obtain ⟨p, hp, he⟩ := this
  cases he
  exact ⟨hp, rfl⟩

theorem arePricingsEqual_eq_true_iff (a b : ModelPricing) :
    arePricingsEqual a b = true ↔
      a.modelId = b.modelId
      ∧ a.inputPricePerMillion = b.inputPricePerMillion
      ∧ a.outputPricePerMillion = b.outputPricePerMillion
      ∧ a.cachedInputPricePerMillion = b.cachedInputPricePerMillion
      ∧ a.contextWindow = b.contextWindow
      ∧ a.maxOutputTokens = b.maxOutputTokens := by
  simp [arePricingsEqual, Bool.and_eq_true, decide_eq_true_eq, and_assoc]

theorem arePricingsEqual_refl (a : ModelPricing) : arePricingsEqual a a = true := by
  simp [arePricingsEqual]

/-- Under unique model ids, `new Map(list)` is the list itself, so
`detectChanges` is two `filterMap`s over the input lists. -/
theorem detectChanges_nodup_eq (A B : List ModelPricing) (d : String)
    (hA : (modelIds A).Nodup) (hB : (modelIds B).Nodup) :
    detectChanges A B d =
      B.filterMap (diffAddFn A d) ++ A.filterMap (diffRemoveFn B d) := by
  have hA' : ((A.map (fun p => (p.modelId, p))).map Prod.fst).Nodup := by
    have h := keysOf_keyed A
    simp only [keysOf, keyed] at h
    rw [h]; exact hA
  have hB' : ((B.map (fun p => (p.modelId, p))).map Prod.fst).Nodup := by
    have h := keysOf_keyed B
    simp only [keysOf, keyed] at h
    rw [h]; exact hB
  simp only [detectChanges]
  rw [mapFromList_eq_self _ hA', mapFromList_eq_self _ hB']
  rw [List.filterMap_map, List.filterMap_map]
  rfl

/-- A predicate that forces a fixed model id holds for at most one list
entry when model ids are unique; counting it yields 0 or 1. -/
theorem countP_once_of_nodup (B : List ModelPricing) (m : String)
    (hB : (modelIds B).Nodup) (g : ModelPricing → Bool)
    (hg : ∀ q, g q = true → q.modelId = m) :
    B.countP g = if ∃ b ∈ B, g b = true then 1 else 0 := by
  induction B with
  | nil => simp
  | cons b B' ih =>
    simp only [modelIds, List.map_cons, List.nodup_cons] at hB
    by_cases hgb : g b = true
    · have hzero : B'.countP g = 0 := by
        rw [List.countP_eq_zero]
        intro q hq hgq
        have hmem : q.modelId ∈ B'.map ModelPricing.modelId :=
          List.mem_map_of_mem ModelPricing.modelId hq
        rw [hg q hgq, ← hg b hgb] at hmem
        exact hB.1 hmem
      rw [List.countP_cons, hzero, if_pos hgb,
        if_pos ⟨b, List.mem_cons_self b B', hgb⟩]
    · have hiff : (∃ x ∈ b :: B', g x = true) ↔ (∃ x ∈ B', g x = true) := by
        constructor
        · rintro ⟨x, hx, hgx⟩
          rcases List.mem_cons.mp hx with rfl | hx'
          · exact absurd hgx hgb
          · exact ⟨x, hx', hgx⟩
        · rintro ⟨x, hx, hgx⟩
          exact ⟨x, List.mem_cons_of_mem b hx, hgx⟩
      rw [List.countP_cons, if_neg hgb, Nat.add_zero, ih hB.2,
        if_congr hiff rfl rfl]

theorem countP_added_filterMap_remove (A B : List ModelPricing) (d m : String) :
    (A.filterMap (diffRemoveFn B d)).countP (isAddedFor m) = 0 := by
  rw [List.countP_eq_zero]
  intro c hc
  obtain ⟨a, _, hfa⟩ := List.mem_filterMap.mp hc
  simp only [diffRemoveFn] at hfa
  by_cases hs : (mapGet (keyed B) a.modelId).isSome
  · simp [hs] at hfa
  · rw [if_neg hs] at hfa
    simp only [Option.some.injEq] at hfa
    rw [← hfa]
    simp [isAddedFor]

theorem countP_updated_filterMap_remove (A B : List ModelPricing) (d m : String) :
    (A.filterMap (diffRemoveFn B d)).countP (isUpdatedFor m) = 0 := by
  rw [List.countP_eq_zero]
  intro c hc
  obtain ⟨a, _, hfa⟩ := List.mem_filterMap.mp hc
  simp only [diffRemoveFn] at hfa
  by_cases hs : (mapGet (keyed B) a.modelId).isSome
  · simp [hs] at hfa
  · rw [if_neg hs] at hfa
    simp only [Option.some.injEq] at hfa
    rw [← hfa]
    simp [isUpdatedFor]

theorem countP_removed_filterMap_add (A B : List ModelPricing) (d m : String) :
    (B.filterMap (diffAddFn A d)).countP (isRemovedFor m) = 0 := by
  rw [List.countP_eq_zero]
  intro c hc
  obtain ⟨q, _, hfq⟩ := List.mem_filterMap.mp hc
  simp only [diffAddFn] at hfq
  cases hq : mapGet (keyed A) q.modelId with
  | none =>
    simp only [hq, Option.some.injEq] at hfq
    rw [← hfq]
    simp [isRemovedFor]
  | some cur =>
    simp only [hq] at hfq
    by_cases he : arePricingsEqual cur q
    · simp [he] at hfq
    · rw [if_neg he] at hfq
      simp only [Option.some.injEq] at hfq
      rw [← hfq]
      simp [isRemovedFor]

theorem countP_detectChanges_added (A B : List ModelPricing) (d m : String)
    (hA : (modelIds A).Nodup) (hB : (modelIds B).Nodup) :
    (detectChanges A B d).countP (isAddedFor m)
      = if m ∈ modelIds B ∧ m ∉ modelIds A then 1 else 0 := by
  rw [detectChanges_nodup_eq A B d hA hB, List.countP_append,
    countP_added_filterMap_remove, Nat.add_zero, List.countP_filterMap]
  have hfun : ∀ q, ((diffAddFn A d q).map (isAddedFor m)).getD false
      = (decide (q.modelId = m) && decide (mapGet (keyed A) q.modelId = none)) := by
    intro q
    simp only [diffAddFn]
    cases hq : mapGet (keyed A) q.modelId with
    | none => simp [isAddedFor]
    | some cur =>
      by_cases he : arePricingsEqual cur q <;> simp [he, isAddedFor]
  have hcnt := countP_once_of_nodup B m hB
    (fun q => decide (q.modelId = m) && decide (mapGet (keyed A) q.modelId = none))
    (by intro q hq; simp only [Bool.and_eq_true, decide_eq_true_eq] at hq; exact hq.1)
  calc B.countP (fun q => ((diffAddFn A d q).map (isAddedFor m)).getD false)
      = B.countP (fun q =>
          decide (q.modelId = m) && decide (mapGet (keyed A) q.modelId = none)) := by
        exact List.countP_congr (fun q _ => by rw [hfun q])
    _ = if ∃ b ∈ B, (decide (b.modelId = m)
          && decide (mapGet (keyed A) b.modelId = none)) = true then 1 else 0 := hcnt
    _ = if m ∈ modelIds B ∧ m ∉ modelIds A then 1 else 0 := by
        refine if_congr ?_ rfl rfl
        constructor
        · rintro ⟨b, hb, hgb⟩
          simp only [Bool.and_eq_true, decide_eq_true_eq] at hgb
          obtain ⟨hbm, hnone⟩ := hgb
          rw [hbm] at hnone
          exact ⟨hbm ▸ List.mem_map_of_mem ModelPricing.modelId hb,
            (mapGet_keyed_eq_none_iff A m).mp hnone⟩
        · rintro ⟨hmB, hmA⟩
          obtain ⟨b, hb, hbm⟩ := List.mem_map.mp hmB
          refine ⟨b, hb, ?_⟩
          simp only [Bool.and_eq_true, decide_eq_true_eq]
          exact ⟨hbm, hbm ▸ (mapGet_keyed_eq_none_iff A m).mpr hmA⟩

theorem countP_detectChanges_removed (A B : List ModelPricing) (d m : String)
    (hA : (modelIds A).Nodup) (hB : (modelIds B).Nodup) :
    (detectChanges A B d).countP (isRemovedFor m)
      = if m ∈ modelIds A ∧ m ∉ modelIds B then 1 else 0 := by
  rw [detectChanges_nodup_eq A B d hA hB, List.countP_append,
    countP_removed_filterMap_add, Nat.zero_add, List.countP_filterMap]
  have hfun : ∀ a, ((diffRemoveFn B d a).map (isRemovedFor m)).getD false
      = (decide (a.modelId = m) && decide (mapGet (keyed B) a.modelId = none)) := by
    intro a
    simp only [diffRemoveFn]
    by_cases hs : (mapGet (keyed B) a.modelId).isSome
    · simp only [hs, if_true, Option.map_none', Option.getD_none]
      rw [Option.isSome_iff_exists] at hs
      obtain ⟨v, hv⟩ := hs
      simp [hv]
    · simp only [hs, if_false]
      rw [Option.not_isSome_iff_eq_none] at hs
      simp [isRemovedFor, hs]
  have hcnt := countP_once_of_nodup A m hA
    (fun a => decide (a.modelId = m) && decide (mapGet (keyed B) a.modelId = none))
    (by intro q hq; simp only [Bool.and_eq_true, decide_eq_true_eq] at hq; exact hq.1)
  calc A.countP (fun a => ((diffRemoveFn B d a).map (isRemovedFor m)).getD false)
      = A.countP (fun a =>
          decide (a.modelId = m) && decide (mapGet (keyed B) a.modelId = none)) := by
        exact List.countP_congr (fun a _ => by rw [hfun a])
    _ = if ∃ a ∈ A, (decide (a.modelId = m)
          && decide (mapGet (keyed B) a.modelId = none)) = true then 1 else 0 := hcnt
    _ = if m ∈ modelIds A ∧ m ∉ modelIds B then 1 else 0 := by
        refine if_congr ?_ rfl rfl
        constructor
        · rintro ⟨a, ha, hga⟩
          simp only [Bool.and_eq_true, decide_eq_true_eq] at hga
          obtain ⟨ham, hnone⟩ := hga
          rw [ham] at hnone
          exact ⟨ham ▸ List.mem_map_of_mem ModelPricing.modelId ha,
            (mapGet_keyed_eq_none_iff B m).mp hnone⟩
        · rintro ⟨hmA, hmB⟩
          obtain ⟨a, ha, ham⟩ := List.mem_map.mp hmA
          refine ⟨a, ha, ?_⟩
          simp only [Bool.and_eq_true, decide_eq_true_eq]
          exact ⟨ham, ham ▸ (mapGet_keyed_eq_none_iff B m).mpr hmB⟩

theorem countP_detectChanges_updated (A B : List ModelPricing) (d m : String)
    (hA : (modelIds A).Nodup) (hB : (modelIds B).Nodup)
    {a b : ModelPricing} (ha : a ∈ A) (ham : a.modelId = m)
    (hb : b ∈ B) (hbm : b.modelId = m) :
    (detectChanges A B d).countP (isUpdatedFor m)
      = if arePricingsEqual a b = true then 0 else 1 := by
  rw [detectChanges_nodup_eq A B d hA hB, List.countP_append,
    countP_updated_filterMap_remove, Nat.add_zero, List.countP_filterMap]
  have hgetA : mapGet (keyed A) m = some a := by
    have h := mapGet_keyed_of_mem hA ha
    rwa [ham] at h
  have hfun : ∀ q ∈ B, (((diffAddFn A d q).map (isUpdatedFor m)).getD false = true)
      ↔ ((decide (q.modelId = m) && !arePricingsEqual a q) = true) := by
    intro q _
    by_cases hqm : q.modelId = m
    · simp only [diffAddFn, hqm, hgetA]
      by_cases he : arePricingsEqual a q <;> simp [he, isUpdatedFor, hqm]
    · simp only [diffAddFn]
      cases hg : mapGet (keyed A) q.modelId with
      | none => simp [isUpdatedFor, hqm]
      | some cur =>
        by_cases he : arePricingsEqual cur q <;> simp [he, isUpdatedFor, hqm]
  rw [List.countP_congr hfun]
  rw [countP_once_of_nodup B m hB _
    (fun q hq => by
      simp only [Bool.and_eq_true, decide_eq_true_eq] at hq
      exact hq.1)]
  by_cases he : arePricingsEqual a b = true
  · have hcond : ¬∃ x ∈ B, (decide (x.modelId = m) && !arePricingsEqual a x) = true := by
      rintro ⟨x, hx, hgx⟩
      simp only [Bool.and_eq_true, decide_eq_true_eq, Bool.not_eq_true'] at hgx
      have hxb : x = b :=
        List.inj_on_of_nodup_map hB hx hb (by rw [hgx.1, hbm])
      have hfalse : arePricingsEqual a b = false := by rw [← hxb]; exact hgx.2
      rw [he] at hfalse
      exact absurd hfalse (by decide)
    rw [if_neg hcond, if_pos he]
  · have hcond : ∃ x ∈ B, (decide (x.modelId = m) && !arePricingsEqual a x) = true := by
      refine ⟨b, hb, ?_⟩
      simp only [Bool.and_eq_true, decide_eq_true_eq, Bool.not_eq_true']
      exact ⟨hbm, by simpa using he⟩
    rw [if_pos hcond, if_neg he]

theorem countP_detectChanges_updated_zero (A B : List ModelPricing) (d m : String)
    (hA : (modelIds A).Nodup) (hB : (modelIds B).Nodup)
    (h : m ∉ modelIds A ∨ m ∉ modelIds B) :
    (detectChanges A B d).countP (isUpdatedFor m) = 0 := by
  rw [detectChanges_nodup_eq A B d hA hB, List.countP_append,
    countP_updated_filterMap_remove, Nat.add_zero, List.countP_eq_zero]
  intro c hc hup
  obtain ⟨q, hqB, hfq⟩ := List.mem_filterMap.mp hc
  simp only [diffAddFn] at hfq
  cases hg : mapGet (keyed A) q.modelId with
  | none =>
    simp only [hg, Option.some.injEq] at hfq
    rw [← hfq] at hup
    simp [isUpdatedFor] at hup
  | some cur =>
    simp only [hg] at hfq
    by_cases he : arePricingsEqual cur q
    · simp [he] at hfq
    · rw [if_neg he] at hfq
      simp only [Option.some.injEq] at hfq
      rw [← hfq] at hup
      simp only [isUpdatedFor, Bool.and_eq_true, decide_eq_true_eq] at hup
      have hqm : q.modelId = m := hup.2
      rcases h with hmA | hmB
      · refine hmA ?_
        have := mapGet_keyed_mem hg
        have hcurm : cur.modelId = m := by rw [this.2, hqm]
        exact hcurm ▸ List.mem_map_of_mem ModelPricing.modelId this.1
      · exact hmB (hqm ▸ List.mem_map_of_mem ModelPricing.modelId hqB)

theorem countP_isEventFor_split (l : List PriceChange) (m : String) :
    l.countP (isEventFor m)
      = l.countP (isAddedFor m) + l.countP (isRemovedFor m)
        + l.countP (isUpdatedFor m) := by
  induction l with
  | nil => rfl
  | cons c l ih =>
    simp only [List.countP_cons, ih]
    cases hct : c.changeType <;>
      by_cases hcm : c.pricing.modelId = m <;>
        simp [isEventFor, isAddedFor, isRemovedFor, isUpdatedFor, hct, hcm] <;>
          omega

theorem detectChanges_mem_spec (A B : List ModelPricing) (d : String)
    (hA : (modelIds A).Nodup) (hB : (modelIds B).Nodup) :
    ∀ c ∈ detectChanges A B d, c.date = d
      ∧ (c.changeType = ChangeType.added →
          c.pricing ∈ B ∧ c.pricing.modelId ∉ modelIds A ∧ c.previousPricing = none)
      ∧ (c.changeType = ChangeType.updated →
          c.pricing ∈ B ∧ ∃ a, a ∈ A ∧ a.modelId = c.pricing.modelId
            ∧ c.previousPricing = some a ∧ arePricingsEqual a c.pricing = false)
      ∧ (c.changeType = ChangeType.removed →
          c.pricing ∈ A ∧ c.pricing.modelId ∉ modelIds B ∧ c.previousPricing = none) := by
  rw [detectChanges_nodup_eq A B d hA hB]
  intro c hc
  rcases List.mem_append.mp hc with hc1 | hc2
  · obtain ⟨q, hq, hfq⟩ := List.mem_filterMap.mp hc1
    simp only [diffAddFn] at hfq
    cases hg : mapGet (keyed A) q.modelId with
    | none =>
      simp only [hg, Option.some.injEq] at hfq
      subst hfq
      refine ⟨rfl, ?_, ?_, ?_⟩
      · intro _
        exact ⟨hq, (mapGet_keyed_eq_none_iff A q.modelId).mp hg, rfl⟩
      · intro hcu
        simp at hcu
      · intro hcr
        simp at hcr
    | some cur =>
      simp only [hg] at hfq
      by_cases he : arePricingsEqual cur q
      · simp [he] at hfq
      · rw [if_neg he] at hfq
        simp only [Option.some.injEq] at hfq
        subst hfq
        refine ⟨rfl, ?_, ?_, ?_⟩
        · intro hca
          simp at hca
        · intro _
          obtain ⟨hcurA, hcurkey⟩ := mapGet_keyed_mem hg
          exact ⟨hq, cur, hcurA, hcurkey, rfl, by simpa using he⟩
        · intro hcr
          simp at hcr
  · obtain ⟨acur, haA, hfa⟩ := List.mem_filterMap.mp hc2
    simp only [diffRemoveFn] at hfa
    by_cases hs : (mapGet (keyed B) acur.modelId).isSome
    · simp [hs] at hfa
    · rw [if_neg hs] at hfa
      simp only [Option.some.injEq] at hfa
      subst hfa
      refine ⟨rfl, ?_, ?_, ?_⟩
      · intro hca
        simp at hca
      · intro hcu
        simp at hcu
      · intro _
        refine ⟨haA, ?_, rfl⟩
        rw [Option.not_isSome_iff_eq_none] at hs
        exact (mapGet_keyed_eq_none_iff B acur.modelId).mp hs

/-- C1: For every current snapshot `A` (price records indexed by model id)
and new record set `B` for the same provider, `detectChanges A B d` emits
exactly one `added` event per model id in `B \ A`, exactly one `removed`
event (carrying the last-known record) per model id in `A \ B`, and, for a
model id in both, exactly one `updated` event (carrying new and previous
record) iff at least one comparable field (input price, output price,
cached-input price, context window, max-output-tokens) differs; metadata
and display name are not compared, and no other events are emitted. -/
theorem detectChanges_diff_completeness (A B : List ModelPricing) (d m : String)
    (hA : (modelIds A).Nodup) (hB : (modelIds B).Nodup) :
    ((detectChanges A B d).countP (isAddedFor m)
        = if m ∈ modelIds B ∧ m ∉ modelIds A then 1 else 0)
    ∧ ((detectChanges A B d).countP (isRemovedFor m)
        = if m ∈ modelIds A ∧ m ∉ modelIds B then 1 else 0)
    ∧ (∀ a, a ∈ A → a.modelId = m → ∀ b, b ∈ B → b.modelId = m →
        (detectChanges A B d).countP (isUpdatedFor m)
          = if a.inputPricePerMillion = b.inputPricePerMillion
              ∧ a.outputPricePerMillion = b.outputPricePerMillion
              ∧ a.cachedInputPricePerMillion = b.cachedInputPricePerMillion
              ∧ a.contextWindow = b.contextWindow
              ∧ a.maxOutputTokens = b.maxOutputTokens
            then 0 else 1)
    ∧ ((m ∉ modelIds A ∨ m ∉ modelIds B) →
        (detectChanges A B d).countP (isUpdatedFor m) = 0)
    ∧ ((detectChanges A B d).countP (isEventFor m)
        = (detectChanges A B d).countP (isAddedFor m)
          + (detectChanges A B d).countP (isRemovedFor m)
          + (detectChanges A B d).countP (isUpdatedFor m))
    ∧ (∀ c ∈ detectChanges A B d, c.date = d
        ∧ (c.changeType = ChangeType.added →
            c.pricing ∈ B ∧ c.pricing.modelId ∉ modelIds A
              ∧ c.previousPricing = none)
        ∧ (c.changeType = ChangeType.updated →
            c.pricing ∈ B ∧ ∃ a, a ∈ A ∧ a.modelId = c.pricing.modelId
              ∧ c.previousPricing = some a
              ∧ arePricingsEqual a c.pricing = false)
        ∧ (c.changeType = ChangeType.removed →
            c.pricing ∈ A ∧ c.pricing.modelId ∉ modelIds B
              ∧ c.previousPricing = none)) := by
  refine ⟨countP_detectChanges_added A B d m hA hB,
    countP_detectChanges_removed A B d m hA hB, ?_,
    countP_detectChanges_updated_zero A B d m hA hB,
    countP_isEventFor_split _ m,
    detectChanges_mem_spec A B d hA hB⟩
  intro a ha ham b hb hbm
  rw [countP_detectChanges_updated A B d m hA hB ha ham hb hbm]
  refine if_congr ?_ rfl rfl
  rw [arePricingsEqual_eq_true_iff]
  constructor
  · rintro ⟨_, h2⟩
    exact h2
  · intro h2
    exact ⟨ham.trans hbm.symm, h2⟩

theorem detectChanges_diff_completeness_witness :
    (modelIds sampleA).Nodup ∧ (modelIds sampleB).Nodup
    ∧ (detectChanges sampleA sampleB "2025-01-02").countP (isAddedFor "new") = 1
    ∧ (detectChanges sampleA sampleB "2025-01-02").countP (isRemovedFor "gone") = 1
    ∧ (detectChanges sampleA sampleB "2025-01-02").countP (isUpdatedFor "keep") = 1 := by
  refine ⟨by decide, by decide, ?_, ?_, ?_⟩
  · have h := (detectChanges_diff_completeness sampleA sampleB "2025-01-02" "new"
      (by decide) (by decide)).1
    rw [h, if_pos (by decide)]
  · have h := (detectChanges_diff_completeness sampleA sampleB "2025-01-02" "gone"
      (by decide) (by decide)).2.1
    rw [h, if_pos (by decide)]
  · have h := (detectChanges_diff_completeness sampleA sampleB "2025-01-02" "keep"
      (by decide) (by decide)).2.2.1
    have h2 := h sampleKeepOld (by decide) (by decide)
      sampleKeepNew (by decide) (by decide)
    rw [h2, if_neg (by decide)]

theorem detectChanges_eq_fns (curr P : List ModelPricing) (d : String) :
    detectChanges curr P d
      = (mapFromList (keyed P)).filterMap (addFn (mapFromList (keyed curr)) d)
        ++ (mapFromList (keyed curr)).filterMap
            (removeFn (mapFromList (keyed P)) d) := rfl

theorem mem_mapSet {α : Type} {m : Jmap α} {k : String} {v : α} {x : String × α}
    (h : x ∈ mapSet m k v) : x ∈ m ∨ x = (k, v) := by
  induction m with
  | nil =>
    simp only [mapSet, List.mem_singleton] at h
    exact Or.inr h
  | cons p rest ih =>
    by_cases hp : p.1 = k
    · rw [mapSet_cons_pos p rest k v hp] at h
      rcases List.mem_cons.mp h with h1 | h1
      · exact Or.inr h1
      · exact Or.inl (List.mem_cons_of_mem p h1)
    · rw [mapSet_cons_neg p rest k v hp] at h
      rcases List.mem_cons.mp h with h1 | h1
      · exact Or.inl (h1 ▸ List.mem_cons_self p rest)
      · rcases ih h1 with h2 | h2
        · exact Or.inl (List.mem_cons_of_mem p h2)
        · exact Or.inr h2

theorem pricingKeyed_mapSet {m : Jmap ModelPricing} {v : ModelPricing}
    (hm : PricingKeyed m) : PricingKeyed (mapSet m v.modelId v) := by
  intro x hx
  rcases mem_mapSet hx with h1 | h1
  · exact hm x h1
  · rw [h1]

theorem pricingKeyed_mapDelete {m : Jmap ModelPricing} {k : String}
    (hm : PricingKeyed m) : PricingKeyed (mapDelete m k) := by
  intro x hx
  exact hm x (List.mem_of_mem_filter hx)

theorem pricingKeyed_replayStep {m : Jmap ModelPricing} (c : PriceChange)
    (hm : PricingKeyed m) : PricingKeyed (replayStep m c) := by
  cases hct : c.changeType <;> simp only [replayStep, hct]
  · exact pricingKeyed_mapSet hm
  · exact pricingKeyed_mapDelete hm
  · exact pricingKeyed_mapSet hm

theorem nodupKeys_replayStep {m : Jmap ModelPricing} (c : PriceChange)
    (hm : NodupKeys m) : NodupKeys (replayStep m c) := by
  cases hct : c.changeType <;> simp only [replayStep, hct]
  · exact nodupKeys_mapSet _ _ _ hm
  · exact nodupKeys_mapDelete _ _ hm
  · exact nodupKeys_mapSet _ _ _ hm

theorem pricingKeyed_foldl_replayStep (es : List PriceChange) :
    ∀ (m : Jmap ModelPricing), PricingKeyed m →
      PricingKeyed (es.foldl replayStep m) := by
  induction es with
  | nil => intro m hm; simpa using hm
  | cons c es ih =>
    intro m hm
    exact ih _ (pricingKeyed_replayStep c hm)

theorem nodupKeys_foldl_replayStep (es : List PriceChange) :
    ∀ (m : Jmap ModelPricing), NodupKeys m →
      NodupKeys (es.foldl replayStep m) := by
  induction es with
  | nil => intro m hm; simpa using hm
  | cons c es ih =>
    intro m hm
    exact ih _ (nodupKeys_replayStep c hm)

theorem pricingKeyed_replayMap (es : List PriceChange) :
    PricingKeyed (replayMap es) :=
  pricingKeyed_foldl_replayStep es [] (by intro x hx; cases hx)

theorem nodupKeys_replayMap (es : List PriceChange) :
    NodupKeys (replayMap es) :=
  nodupKeys_foldl_replayStep es [] (by simp [NodupKeys, keysOf])

theorem pricingKeyed_mapFromList {l : List (String × ModelPricing)}
    (hl : ∀ p ∈ l, p.2.modelId = p.1) : PricingKeyed (mapFromList l) := by
  have haux : ∀ (l' : List (String × ModelPricing)),
      (∀ p ∈ l', p.2.modelId = p.1) →
      ∀ (m : Jmap ModelPricing), PricingKeyed m →
      PricingKeyed (l'.foldl (fun m p => mapSet m p.1 p.2) m) := by
    intro l'
    induction l' with
    | nil => intro _ m hm; simpa using hm
    | cons p rest ih =>
      intro hl' m hm
      simp only [List.foldl_cons]
      refine ih (fun q hq => hl' q (List.mem_cons_of_mem p hq)) _ ?_
      have hp : p.2.modelId = p.1 := hl' p (List.mem_cons_self p rest)
      intro x hx
      rcases mem_mapSet hx with h1 | h1
      · exact hm x h1
      · rw [h1]
        exact hp
  exact haux l hl [] (by intro x hx; cases hx)

theorem pricingKeyed_mapFromList_keyed (P : List ModelPricing) :
    PricingKeyed (mapFromList (keyed P)) := by
  refine pricingKeyed_mapFromList ?_
  intro p hp
  simp only [keyed, List.mem_map] at hp
  obtain ⟨q, _, hq⟩ := hp
  rw [← hq]

/-- Rebuilding the key/value list from a keyed map's values gives the map
back. -/
theorem keyed_map_snd (m : Jmap ModelPricing) (hpk : PricingKeyed m) :
    keyed (m.map Prod.snd) = m := by
  rw [keyed, List.map_map]
  have : ∀ p ∈ m, ((fun p => (p.modelId, p)) ∘ Prod.snd) p = id p := by
    intro p hp
    simp only [Function.comp, id]
    have := hpk p hp
    cases p
    simp only at this
    simp [this]
  rw [List.map_congr_left this, List.map_id]

theorem addFn_some_pricing {M₀ : Jmap ModelPricing} {d : String}
    {kv : String × ModelPricing} {c : PriceChange}
    (h : addFn M₀ d kv = some c) :
    c.pricing = kv.2
      ∧ (c.changeType = ChangeType.added ∨ c.changeType = ChangeType.updated) := by
  simp only [addFn] at h
  cases hg : mapGet M₀ kv.1 with
  | none =>
    simp only [hg, Option.some.injEq] at h
    rw [← h]
    exact ⟨rfl, Or.inl rfl⟩
  | some cur =>
    simp only [hg] at h
    by_cases he : arePricingsEqual cur kv.2
    · simp [he] at h
    · rw [if_neg he] at h
      simp only [Option.some.injEq] at h
      rw [← h]
      exact ⟨rfl, Or.inr rfl⟩

theorem addFn_none {M₀ : Jmap ModelPricing} {d : String}
    {kv : String × ModelPricing} (h : addFn M₀ d kv = none) :
    ∃ cur, mapGet M₀ kv.1 = some cur ∧ arePricingsEqual cur kv.2 = true := by
  simp only [addFn] at h
  cases hg : mapGet M₀ kv.1 with
  | none => simp [hg] at h
  | some cur =>
    simp only [hg] at h
    by_cases he : arePricingsEqual cur kv.2
    · exact ⟨cur, rfl, he⟩
    · rw [if_neg he] at h
      simp at h

theorem removeFn_some {N : Jmap ModelPricing} {d : String}
    {kv : String × ModelPricing} {c : PriceChange}
    (h : removeFn N d kv = some c) :
    c.pricing = kv.2 ∧ c.changeType = ChangeType.removed := by
  simp only [removeFn] at h
  by_cases hs : (mapGet N kv.1).isSome
  · simp [hs] at h
  · rw [if_neg hs] at h
    simp only [Option.some.injEq] at h
    rw [← h]
    exact ⟨rfl, rfl⟩

theorem removeFn_none {N : Jmap ModelPricing} {d : String}
    {kv : String × ModelPricing} (h : removeFn N d kv = none) :
    (mapGet N kv.1).isSome = true := by
  simp only [removeFn] at h
  by_cases hs : (mapGet N kv.1).isSome
  · exact hs
  · rw [if_neg hs] at h
    simp at h

theorem replayStep_not_removed {start : Jmap ModelPricing} {c : PriceChange}
    (h : c.changeType = ChangeType.added ∨ c.changeType = ChangeType.updated) :
    replayStep start c = mapSet start c.pricing.modelId c.pricing := by
  rcases h with h | h <;> simp [replayStep, h]

theorem replayStep_removed {start : Jmap ModelPricing} {c : PriceChange}
    (h : c.changeType = ChangeType.removed) :
    replayStep start c = mapDelete start c.pricing.modelId := by
  simp [replayStep, h]

theorem foldl_addFn_get (d : String) (M₀ : Jmap ModelPricing) :
    ∀ (N : Jmap ModelPricing), NodupKeys N → PricingKeyed N →
    ∀ (start : Jmap ModelPricing) (k : String),
    mapGet ((N.filterMap (addFn M₀ d)).foldl replayStep start) k
      = match mapGet N k with
        | some q => if (addFn M₀ d (k, q)).isSome then some q else mapGet start k
        | none => mapGet start k := by
  intro N
  induction N with
  | nil =>
    intro _ _ start k
    simp [mapGet_nil]
  | cons p N' ih =>
    intro hnd hpk start k
    obtain ⟨k₀, q₀⟩ := p
    have hq₀ : q₀.modelId = k₀ := hpk (k₀, q₀) (List.mem_cons_self _ _)
    simp only [NodupKeys, keysOf, List.map_cons, List.nodup_cons] at hnd
    have hnd' : NodupKeys N' := hnd.2
    have hpk' : PricingKeyed N' := fun x hx => hpk x (List.mem_cons_of_mem _ hx)
    rw [List.filterMap_cons]
    cases hf : addFn M₀ d (k₀, q₀) with
    | none =>
      rw [ih hnd' hpk' start k, mapGet_cons]
      by_cases hk : k₀ = k
      · subst hk
        have hN' : mapGet N' k₀ = none := by
          rw [mapGet_eq_none_iff]
          intro hmem
          exact hnd.1 (by simpa [keysOf] using hmem)
        simp [hN', hf]
      · simp [hk]
    | some c =>
      obtain ⟨hcp, hct⟩ := addFn_some_pricing hf
      have hstep : replayStep start c = mapSet start k₀ q₀ := by
        rw [replayStep_not_removed hct, hcp]
        simp only
        rw [hq₀]
      rw [List.foldl_cons, hstep, ih hnd' hpk' _ k, mapGet_cons]
      by_cases hk : k₀ = k
      · subst hk
        have hN' : mapGet N' k₀ = none := by
          rw [mapGet_eq_none_iff]
          intro hmem
          exact hnd.1 (by simpa [keysOf] using hmem)
        simp [hN', hf, mapGet_mapSet]
      · have hget : mapGet (mapSet start k₀ q₀) k = mapGet start k := by
          rw [mapGet_mapSet, if_neg (fun he => hk he.symm)]
        simp only [hk, if_false, hget]

theorem foldl_removeFn_get (d : String) (N : Jmap ModelPricing) :
    ∀ (Ml : Jmap ModelPricing), NodupKeys Ml → PricingKeyed Ml →
    ∀ (start : Jmap ModelPricing) (k : String),
    mapGet ((Ml.filterMap (removeFn N d)).foldl replayStep start) k
      = match mapGet Ml k with
        | some _ => if (mapGet N k).isSome then mapGet start k else none
        | none => mapGet start k := by
  intro Ml
  induction Ml with
  | nil =>
    intro _ _ start k
    simp [mapGet_nil]
  | cons p Ml' ih =>
    intro hnd hpk start k
    obtain ⟨k₀, q₀⟩ := p
    have hq₀ : q₀.modelId = k₀ := hpk (k₀, q₀) (List.mem_cons_self _ _)
    simp only [NodupKeys, keysOf, List.map_cons, List.nodup_cons] at hnd
    have hnd' : NodupKeys Ml' := hnd.2
    have hpk' : PricingKeyed Ml' := fun x hx => hpk x (List.mem_cons_of_mem _ hx)
    rw [List.filterMap_cons]
    cases hf : removeFn N d (k₀, q₀) with
    | none =>
      have hsome := removeFn_none hf
      rw [ih hnd' hpk' start k, mapGet_cons]
      by_cases hk : k₀ = k
      · subst hk
        have hMl' : mapGet Ml' k₀ = none := by
          rw [mapGet_eq_none_iff]
          intro hmem
          exact hnd.1 (by simpa [keysOf] using hmem)
        simp only at hsome
        simp [hMl', hsome]
      · simp [hk]
    | some c =>
      obtain ⟨hcp, hct⟩ := removeFn_some hf
      have hnone : mapGet N k₀ = none := by
        have h' := hf
        simp only [removeFn] at h'
        by_cases hs : (mapGet N k₀).isSome
        · simp only at hs
          simp [hs] at h'
        · simpa [Option.not_isSome_iff_eq_none] using hs
      have hstep : replayStep start c = mapDelete start k₀ := by
        rw [replayStep_removed hct, hcp]
        simp only
        rw [hq₀]
      rw [List.foldl_cons, hstep, ih hnd' hpk' _ k, mapGet_cons]
      by_cases hk : k₀ = k
      · subst hk
        have hMl' : mapGet Ml' k₀ = none := by
          rw [mapGet_eq_none_iff]
          intro hmem
          exact hnd.1 (by simpa [keysOf] using hmem)
        simp [hMl', hnone, mapGet_mapDelete]
      · have hget : mapGet (mapDelete start k₀) k = mapGet start k := by
          rw [mapGet_mapDelete, if_neg (fun he => hk he.symm)]
        simp only [hk, if_false, hget]

theorem detectChanges_snapshot_form (M : Jmap ModelPricing) (hnd : NodupKeys M)
    (hpk : PricingKeyed M) (P : List ModelPricing) (d : String) :
    detectChanges (M.map Prod.snd) P d
      = (mapFromList (keyed P)).filterMap (addFn M d)
        ++ M.filterMap (removeFn (mapFromList (keyed P)) d) := by
  rw [detectChanges_eq_fns, keyed_map_snd M hpk, mapFromList_eq_self M hnd]

theorem replay_after_detectChanges (M : Jmap ModelPricing) (hnd : NodupKeys M)
    (hpk : PricingKeyed M) (P : List ModelPricing) (d : String) (k : String) :
    (mapGet (mapFromList (keyed P)) k = none →
      mapGet ((detectChanges (M.map Prod.snd) P d).foldl replayStep M) k = none)
    ∧ (∀ q, mapGet (mapFromList (keyed P)) k = some q →
        ∃ r, mapGet ((detectChanges (M.map Prod.snd) P d).foldl replayStep M) k
            = some r
          ∧ arePricingsEqual r q = true) := by
  have hndN : NodupKeys (mapFromList (keyed P)) := nodupKeys_mapFromList _
  have hpkN : PricingKeyed (mapFromList (keyed P)) := pricingKeyed_mapFromList_keyed P
  rw [detectChanges_snapshot_form M hnd hpk P d, List.foldl_append]
  have hS := foldl_addFn_get d M (mapFromList (keyed P)) hndN hpkN M k
  have hM' := foldl_removeFn_get d (mapFromList (keyed P)) M hnd hpk
    (((mapFromList (keyed P)).filterMap (addFn M d)).foldl replayStep M) k
  constructor
  · intro hnone
    rw [hM']
    simp only [hnone] at hS
    cases hMk : mapGet M k with
    | none =>
      simp only [hMk]
      rw [hS, hMk]
    | some q0 =>
      simp only [hMk, hnone, Option.isSome_none, Bool.false_eq_true, if_false]
  · intro q hq
    rw [hM']
    simp only [hq] at hS
    cases hf : addFn M d (k, q) with
    | some c =>
      simp only [hf, Option.isSome_some, if_true] at hS
      cases hMk : mapGet M k with
      | none =>
        simp only [hMk]
        exact ⟨q, hS, arePricingsEqual_refl q⟩
      | some q0 =>
        simp only [hMk, hq, Option.isSome_some, if_true]
        exact ⟨q, hS, arePricingsEqual_refl q⟩
    | none =>
      obtain ⟨cur, hcur, hequal⟩ := addFn_none hf
      simp only [hf, Option.isSome_none, Bool.false_eq_true, if_false] at hS
      rw [hcur] at hS
      rw [hcur, hq]
      simp only [Option.isSome_some, if_true]
      exact ⟨cur, hS, hequal⟩

theorem detectChanges_self_nil (M : Jmap ModelPricing) (hnd : NodupKeys M)
    (hpk : PricingKeyed M) (P : List ModelPricing) (d : String)
    (hmatch : ∀ k, (mapGet (mapFromList (keyed P)) k = none → mapGet M k = none)
      ∧ (∀ q, mapGet (mapFromList (keyed P)) k = some q →
          ∃ r, mapGet M k = some r ∧ arePricingsEqual r q = true)) :
    detectChanges (M.map Prod.snd) P d = [] := by
  rw [detectChanges_snapshot_form M hnd hpk P d, List.append_eq_nil]
  constructor
  · rw [List.filterMap_eq_nil_iff]
    intro kv hkv
    have hget : mapGet (mapFromList (keyed P)) kv.1 = some kv.2 := by
      refine mapGet_of_mem (nodupKeys_mapFromList _) ?_
      cases kv
      exact hkv
    obtain ⟨r, hr, hequal⟩ := (hmatch kv.1).2 kv.2 hget
    simp only [addFn, hr, hequal, if_true]
  · rw [List.filterMap_eq_nil_iff]
    intro kv hkv
    have hget : mapGet M kv.1 = some kv.2 := by
      refine mapGet_of_mem hnd ?_
      cases kv
      exact hkv
    simp only [removeFn]
    cases hNk : mapGet (mapFromList (keyed P)) kv.1 with
    | some q => simp
    | none =>
      have hMnone := (hmatch kv.1).1 hNk
      rw [hMnone] at hget
      cases hget

theorem replayMap_all_added (P : List ModelPricing) (today : String) :
    replayMap (P.map (fun pricing =>
      { date := today, changeType := .added, pricing := pricing,
        previousPricing := none : PriceChange }))
      = mapFromList (keyed P) := by
  rw [replayMap, List.foldl_map, mapFromList, keyed, List.foldl_map]
  rfl

/-- C2: applying the same `newPrices` twice via `updateProviderPrices`
emits zero change events on the second call and appends nothing to the
log; equivalently, `detectChanges` of the snapshot obtained after applying
`newPrices` against `newPrices` itself is always empty. -/
theorem updateProviderPrices_idempotent (provider pricingUrl : String)
    (newPrices : List ModelPricing) (now today now2 today2 : String)
    (stored : Option ProviderPriceHistory) :
    ((updateProviderPrices provider pricingUrl newPrices now2 today2
        (some (updateProviderPrices provider pricingUrl newPrices now today
          stored).1)).2 = [])
    ∧ ((updateProviderPrices provider pricingUrl newPrices now2 today2
        (some (updateProviderPrices provider pricingUrl newPrices now today
          stored).1)).1.changes
      = (updateProviderPrices provider pricingUrl newPrices now today
          stored).1.changes)
    ∧ (∀ d : String,
        detectChanges
          (getCurrentSnapshot
            (updateProviderPrices provider pricingUrl newPrices now today
              stored).1).models
          newPrices d = []) := by
  have hkey : ∀ d : String,
      detectChanges
        (getCurrentSnapshot
          (updateProviderPrices provider pricingUrl newPrices now today
            stored).1).models
        newPrices d = [] := by
    intro d
    cases stored with
    | none =>
      have hmodels : (getCurrentSnapshot
          (updateProviderPrices provider pricingUrl newPrices now today
            none).1).models
          = (mapFromList (keyed newPrices)).map Prod.snd := by
        simp only [updateProviderPrices, getCurrentSnapshot]
        rw [replayMap_all_added]
      rw [hmodels]
      refine detectChanges_self_nil _ (nodupKeys_mapFromList _)
        (pricingKeyed_mapFromList_keyed newPrices) newPrices d ?_
      intro k
      refine ⟨fun h => h, fun q hq => ⟨q, hq, arePricingsEqual_refl q⟩⟩
    | some history =>
      have hnd : NodupKeys (replayMap history.changes) :=
        nodupKeys_replayMap history.changes
      have hpk : PricingKeyed (replayMap history.changes) :=
        pricingKeyed_replayMap history.changes
      have hmodels : (getCurrentSnapshot
          (updateProviderPrices provider pricingUrl newPrices now today
            (some history)).1).models
          = ((detectChanges ((replayMap history.changes).map Prod.snd)
                newPrices today).foldl replayStep
              (replayMap history.changes)).map Prod.snd := by
        simp only [updateProviderPrices, getCurrentSnapshot]
        rw [replayMap, List.foldl_append]
        rfl
      rw [hmodels]
      refine detectChanges_self_nil _
        (nodupKeys_foldl_replayStep _ _ hnd)
        (pricingKeyed_foldl_replayStep _ _ hpk) newPrices d ?_
      intro k
      exact replay_after_detectChanges (replayMap history.changes) hnd hpk
        newPrices today k
  refine ⟨?_, ?_, hkey⟩
  · set h1 := (updateProviderPrices provider pricingUrl newPrices now today
      stored).1 with hh1
    simp only [updateProviderPrices]
    exact hkey today2
  · set h1 := (updateProviderPrices provider pricingUrl newPrices now today
      stored).1 with hh1
    simp only [updateProviderPrices]
    rw [hkey today2]
    simp

theorem replayStep_get (start : Jmap ModelPricing) (c : PriceChange) (k : String) :
    mapGet (replayStep start c) k
      = if c.pricing.modelId = k then
          (match c.changeType with
           | ChangeType.removed => none
           | _ => some c.pricing)
        else mapGet start k := by
  cases hct : c.changeType <;> simp only [replayStep, hct]
  · rw [mapGet_mapSet]
    by_cases h : c.pricing.modelId = k
    · simp [h]
    · have hk : ¬k = c.pricing.modelId := fun he => h he.symm
      simp [h, hk]
  · rw [mapGet_mapDelete]
    by_cases h : c.pricing.modelId = k
    · simp [h]
    · have hk : ¬k = c.pricing.modelId := fun he => h he.symm
      simp [h, hk]
  · rw [mapGet_mapSet]
    by_cases h : c.pricing.modelId = k
    · simp [h]
    · have hk : ¬k = c.pricing.modelId := fun he => h he.symm
      simp [h, hk]

theorem foldl_replay_get (m : String) : ∀ (es : List PriceChange)
    (start : Jmap ModelPricing),
    mapGet (es.foldl replayStep start) m
      = match lastChangeFor m es with
        | none => mapGet start m
        | some c =>
          match c.changeType with
          | ChangeType.removed => none
          | _ => some c.pricing := by
  intro es
  induction es with
  | nil =>
    intro start
    simp [lastChangeFor]
  | cons c es ih =>
    intro start
    rw [List.foldl_cons, ih]
    simp only [lastChangeFor]
    by_cases hcm : c.pricing.modelId = m
    · rw [List.filter_cons, if_pos (decide_eq_true hcm)]
      cases hfe : es.filter (fun c => decide (c.pricing.modelId = m)) with
      | nil =>
        simp only [hfe, List.getLast?_singleton, List.getLast?_nil]
        rw [replayStep_get, if_pos hcm]
      | cons x xs =>
        simp only [hfe, List.getLast?_cons_cons]
        cases hx : (x :: xs).getLast? with
        | some y => rfl
        | none => simp at hx
    · rw [List.filter_cons, if_neg (fun hd => hcm (of_decide_eq_true hd))]
      cases hlast : (es.filter (fun c => decide (c.pricing.modelId = m))).getLast? with
      | some c' => rfl
      | none =>
        simp only
        rw [replayStep_get, if_neg hcm]

theorem mapDelete_eq_self {α : Type} {m : Jmap α} {k : String}
    (h : mapGet m k = none) : mapDelete m k = m := by
  rw [mapGet_eq_none_iff] at h
  refine List.filter_eq_self.mpr ?_
  intro p hp
  simp only [decide_eq_true_eq]
  intro he
  exact h (he ▸ List.mem_map_of_mem Prod.fst hp)

/-- C9: snapshot replay (`getCurrentSnapshot`) is total and deterministic:
the record surviving at each model id is a function of the ordered event
list alone (the last event carrying that id — `added`/`updated` leave its
record, `removed` leaves nothing), and a `removed` event for a model id
not present in the accumulating snapshot is a no-op: applying it changes
nothing, and appending it to a history leaves the snapshot unchanged. -/
theorem getCurrentSnapshot_replay (h : ProviderPriceHistory) (m : String)
    (c : PriceChange) :
    ((getCurrentSnapshot h).models = (replayMap h.changes).map Prod.snd)
    ∧ (mapGet (replayMap h.changes) m
        = match lastChangeFor m h.changes with
          | none => none
          | some c' =>
            match c'.changeType with
            | ChangeType.removed => none
            | _ => some c'.pricing)
    ∧ (∀ mp : Jmap ModelPricing, c.changeType = ChangeType.removed →
        mapGet mp c.pricing.modelId = none → replayStep mp c = mp)
    ∧ (c.changeType = ChangeType.removed →
        mapGet (replayMap h.changes) c.pricing.modelId = none →
        getCurrentSnapshot { h with changes := h.changes ++ [c] }
          = getCurrentSnapshot h) := by
  refine ⟨rfl, foldl_replay_get m h.changes [], ?_, ?_⟩
  · intro mp hct hnone
    rw [replayStep_removed hct]
    exact mapDelete_eq_self hnone
  · intro hct hnone
    have hrep : replayMap (h.changes ++ [c]) = replayMap h.changes := by
      rw [replayMap, List.foldl_append]
      simp only [List.foldl_cons, List.foldl_nil]
      rw [replayStep_removed hct]
      exact mapDelete_eq_self hnone
    simp [getCurrentSnapshot, hrep]

theorem getCurrentSnapshot_replay_witness :
    spuriousRemoved.changeType = ChangeType.removed
    ∧ mapGet (replayMap replayHistory.changes) spuriousRemoved.pricing.modelId
        = none
    ∧ getCurrentSnapshot
        { replayHistory with
          changes := replayHistory.changes ++ [spuriousRemoved] }
        = getCurrentSnapshot replayHistory :=
  ⟨rfl, rfl,
    (getCurrentSnapshot_replay replayHistory "alpha" spuriousRemoved).2.2.2
      rfl rfl⟩

/-! ## Pricing client (src/npm/client.ts)

Dates (`YYYY-MM-DD` strings) are integer day numbers; `getUtcDate` plus
`timeOffsetMs` is abstracted into the `today` parameter each operation
receives; the outbound fetch step is a function from the effective
provider name to a three-way `FetchResult`: the `fetchFn` promise (or the
subsequent `response.json()`) threw, the response resolved but was not ok,
or it was ok with a parsed body.  The external cache stores entries keyed
by provider (the `token-costs:` key prefix is injective, serialisation is
the identity).  Each distinct thrown error of the source is a distinct
`ClientError` constructor; a transport throw carries its message
opaquely. -/

/-- C5 (amended): `getModelPricingOrNull` swallows every failure of
`getModelPricing` — not only `ModelNotFound` — returning `none` for any
error; on success it returns the same result, and it never propagates a
failure of any kind. -/
theorem getModelPricingOrNull_swallows_all (cfg : ClientConfig)
    (st : ClientState) (today : Int)
    (fetchRes : String → FetchResult) (provider modelId : String) :
    (∀ e, (getModelPricing cfg st today fetchRes provider modelId).1 = .error e →
      (getModelPricingOrNull cfg st today fetchRes provider modelId).1 = .ok none)
    ∧ (∀ r, (getModelPricing cfg st today fetchRes provider modelId).1 = .ok r →
      (getModelPricingOrNull cfg st today fetchRes provider modelId).1
        = .ok (some r))
    ∧ (∀ e, (getModelPricingOrNull cfg st today fetchRes provider modelId).1
        ≠ .error e)
    ∧ ((getModelPricingOrNull cfg st today fetchRes provider modelId).2
        = (getModelPricing cfg st today fetchRes provider modelId).2) := by
  cases hg : getModelPricing cfg st today fetchRes provider modelId with
  | mk res st2 =>
    cases res with
    | ok r =>
      refine ⟨?_, ?_, ?_, ?_⟩
      · intro e he
        simp at he
      · intro r' hr
        simp only [Except.ok.injEq] at hr
        simp [getModelPricingOrNull, hg, hr]
      · intro e
        simp [getModelPricingOrNull, hg]
      · simp [getModelPricingOrNull, hg]
    | error e0 =>
      refine ⟨?_, ?_, ?_, ?_⟩
      · intro e _
        simp [getModelPricingOrNull, hg]
      · intro r' hr
        simp at hr
      · intro e
        simp [getModelPricingOrNull, hg]
      · simp [getModelPricingOrNull, hg]

/-- C5 counterexample: a `ProviderNotFound` failure (offline client, no
custom overlay) is not propagated by `getModelPricingOrNull` — the claim
says every non-`ModelNotFound` failure propagates unchanged, but the
source's bare `catch` returns `null` here too. -/
theorem getModelPricingOrNull_cex :
    (getModelPricing offlineCfg emptyClientState 0 noFetch "acme" "m").1
        = .error (.providerNotFound "acme")
    ∧ (getModelPricingOrNull offlineCfg emptyClientState 0 noFetch "acme" "m").1
        = .ok none
    ∧ ((.ok none : Except ClientError (Option PriceLookupResult))
        ≠ .error (.providerNotFound "acme")) := by
  refine ⟨rfl, rfl, ?_⟩
  simp

theorem getModelPricingOrNull_witness :
    (getModelPricingOrNull offlineCfg emptyClientState 0 noFetch "acme" "m").1
      = .ok none :=
  (getModelPricingOrNull_swallows_all offlineCfg emptyClientState 0 noFetch
    "acme" "m").1 (.providerNotFound "acme") rfl

/-- C8: on every successful lookup the `stale` flag is true exactly when
the client's `today` is strictly later than the resolved snapshot's date;
equal dates give `stale = false`, and staleness is only reported, never a
failure. -/
theorem getModelPricing_stale_iff (cfg : ClientConfig) (st : ClientState)
    (today : Int) (fetchRes : String → FetchResult)
    (provider modelId : String) (r : PriceLookupResult) (st2 : ClientState)
    (h : getModelPricing cfg st today fetchRes provider modelId = (.ok r, st2)) :
    (r.stale = true ↔ r.date < today) ∧ (r.date = today → r.stale = false) := by
  simp only [getModelPricing] at h
  cases hout : (fetchProvider cfg st today fetchRes provider (some modelId)).result with
  | error e =>
    rw [hout] at h
    simp at h
  | ok file =>
    rw [hout] at h
    simp only [getEffectiveData] at h
    cases hm : mapGet file.current.models modelId with
    | none =>
      rw [hm] at h
      simp at h
    | some pricing =>
      rw [hm] at h
      simp only [Prod.mk.injEq, Except.ok.injEq] at h
      have hr := h.1
      constructor
      · rw [← hr]
        simp only [decide_eq_true_eq]
      · intro hd
        rw [← hr] at hd ⊢
        simp only at hd
        simp [hd]

theorem getModelPricing_stale_iff_witness :
    staleLookupRes.date = 5 ∧ staleLookupRes.stale = false :=
  ⟨rfl,
    (getModelPricing_stale_iff staleCfg emptyClientState 5 noFetch "prov" "m"
      staleLookupRes emptyClientState rfl).2 rfl⟩

theorem fetchAndValidate_fetched (cfg : ClientConfig) (st1 : ClientState)
    (today : Int) (fetchRes : String → FetchResult)
    (provider eff : String) (cached : Option CacheEntry) :
    (fetchAndValidate cfg st1 today fetchRes provider eff cached).fetched
      = true := by
  simp only [fetchAndValidate]
  cases fetchRes eff with
  | thrown msg => rfl
  | notOk => cases cached <;> rfl
  | ok data =>
    by_cases h1 : daysDifference today data.current.date < 0
    · simp [h1]
    · by_cases h2 : 1 < daysDifference today data.current.date <;> simp [h1, h2]

theorem resolveCached_mem (st : ClientState) (eff : String) (e : CacheEntry)
    (h : mapGet st.cache eff = some e) : resolveCached st eff = (some e, st) := by
  simp [resolveCached, h]

theorem resolveCached_ext (st : ClientState) (eff : String)
    (ext : Jmap CacheEntry) (e : CacheEntry)
    (h1 : mapGet st.cache eff = none) (h2 : st.extCache = some ext)
    (h3 : mapGet ext eff = some e) :
    resolveCached st eff
      = (some e, { cache := mapSet st.cache eff e, extCache := st.extCache }) := by
  simp [resolveCached, h1, h2, h3]

theorem resolveCached_state (st : ClientState) (eff : String) :
    ((resolveCached st eff).2.extCache = st.extCache)
    ∧ (∀ k, k ≠ eff →
        mapGet (resolveCached st eff).2.cache k = mapGet st.cache k)
    ∧ ((resolveCached st eff).1 = mapGet (resolveCached st eff).2.cache eff)
    ∧ (∀ e, (resolveCached st eff).1 = some e →
        mapGet st.cache eff = some e
          ∨ ∃ ext, st.extCache = some ext ∧ mapGet ext eff = some e) := by
  rcases hm : mapGet st.cache eff with _ | e
  · rcases hx : st.extCache with _ | ext
    · have hr : resolveCached st eff = (none, st) := by
        simp [resolveCached, hm, hx]
      rw [hr]
      exact ⟨hx, fun k _ => rfl, hm.symm, fun e' he' => absurd he' (by simp)⟩
    · rcases hg : mapGet ext eff with _ | e
      · have hr : resolveCached st eff = (none, st) := by
          simp [resolveCached, hm, hx, hg]
        rw [hr]
        exact ⟨hx, fun k _ => rfl, hm.symm, fun e' he' => absurd he' (by simp)⟩
      · have hr := resolveCached_ext st eff ext e hm hx hg
        rw [hr]
        refine ⟨hx, ?_, ?_, ?_⟩
        · intro k hk
          simp only
          rw [mapGet_mapSet, if_neg hk]
        · simp only
          rw [mapGet_mapSet, if_pos rfl]
        · intro e' he'
          simp only [Option.some.injEq] at he'
          exact Or.inr ⟨ext, rfl, he' ▸ hg⟩
  · have hr := resolveCached_mem st eff e hm
    rw [hr]
    refine ⟨rfl, fun k _ => rfl, hm.symm, ?_⟩
    intro e' he'
    simp only [Option.some.injEq] at he'
    exact Or.inl (by rw [he'])

/-- Case analysis of `fetchProvider`: either no outbound fetch happened,
or the call went through the fetch-and-validate tail on a cache miss. -/
theorem fetchProvider_spec (cfg : ClientConfig) (st : ClientState)
    (today : Int) (fetchRes : String → FetchResult)
    (provider : String) (modelId : Option String) :
    ((fetchProvider cfg st today fetchRes provider modelId).fetched = false
      ∧ ((∃ f, (fetchProvider cfg st today fetchRes provider modelId).result
            = Except.ok f)
        ∨ (fetchProvider cfg st today fetchRes provider modelId).result
            = Except.error (.providerNotFound provider)))
    ∨ (cfg.offline = false
      ∧ isBuiltInProvider (effectiveProviderOf provider modelId) = true
      ∧ fetchProvider cfg st today fetchRes provider modelId
          = fetchAndValidate cfg
              (resolveCached st (effectiveProviderOf provider modelId)).2 today
              fetchRes provider (effectiveProviderOf provider modelId)
              (resolveCached st (effectiveProviderOf provider modelId)).1
      ∧ (∀ e, (resolveCached st (effectiveProviderOf provider modelId)).1
            = some e → e.fetchedDate ≠ today)) := by
  simp only [fetchProvider]
  cases ho : cfg.offline with
  | true =>
    left
    cases hcf : getCustomProviderFile cfg today provider with
    | some f => exact ⟨by simp [hcf], Or.inl ⟨f, by simp [hcf]⟩⟩
    | none => exact ⟨by simp [hcf], Or.inr (by simp [hcf])⟩
  | false =>
    cases hb : isBuiltInProvider (effectiveProviderOf provider modelId) with
    | false =>
      left
      cases hcf : getCustomProviderFile cfg today provider with
      | some f => exact ⟨by simp [hb, hcf], Or.inl ⟨f, by simp [hb, hcf]⟩⟩
      | none => exact ⟨by simp [hb, hcf], Or.inr (by simp [hb, hcf])⟩
    | true =>
      cases hrc : resolveCached st (effectiveProviderOf provider modelId) with
      | mk cached st1 =>
        cases cached with
        | some e =>
          by_cases hd : e.fetchedDate = today
          · left
            exact ⟨by simp [hb, hrc, hd],
              Or.inl ⟨mergeCustomData cfg e.data provider,
                by simp [hb, hrc, hd]⟩⟩
          · right
            refine ⟨rfl, rfl, ?_, ?_⟩
            · simp [hb, hrc, hd]
            · intro e' he'
              simp only [Option.some.injEq] at he'
              rw [← he']
              exact hd
        | none =>
          right
          refine ⟨rfl, rfl, ?_, ?_⟩
          · simp [hb, hrc]
          · intro e' he'
            simp at he'

theorem fetchProvider_fetched (cfg : ClientConfig) (st : ClientState)
    (today : Int) (fetchRes : String → FetchResult)
    (provider : String) (modelId : Option String)
    (hf : (fetchProvider cfg st today fetchRes provider modelId).fetched = true) :
    cfg.offline = false
    ∧ isBuiltInProvider (effectiveProviderOf provider modelId) = true
    ∧ fetchProvider cfg st today fetchRes provider modelId
        = fetchAndValidate cfg
            (resolveCached st (effectiveProviderOf provider modelId)).2 today
            fetchRes provider (effectiveProviderOf provider modelId)
            (resolveCached st (effectiveProviderOf provider modelId)).1
    ∧ (∀ e, (resolveCached st (effectiveProviderOf provider modelId)).1
          = some e → e.fetchedDate ≠ today) := by
  rcases fetchProvider_spec cfg st today fetchRes provider modelId with h | h
  · rw [hf] at h
    simp at h
  · exact h

theorem fetchProvider_not_fetched_result (cfg : ClientConfig) (st : ClientState)
    (today : Int) (fetchRes : String → FetchResult)
    (provider : String) (modelId : Option String) (e0 : ClientError)
    (herr : (fetchProvider cfg st today fetchRes provider modelId).result
        = Except.error e0)
    (hne : ∀ p, e0 ≠ ClientError.providerNotFound p) :
    cfg.offline = false
    ∧ isBuiltInProvider (effectiveProviderOf provider modelId) = true
    ∧ fetchProvider cfg st today fetchRes provider modelId
        = fetchAndValidate cfg
            (resolveCached st (effectiveProviderOf provider modelId)).2 today
            fetchRes provider (effectiveProviderOf provider modelId)
            (resolveCached st (effectiveProviderOf provider modelId)).1
    ∧ (∀ e, (resolveCached st (effectiveProviderOf provider modelId)).1
          = some e → e.fetchedDate ≠ today) := by
  rcases fetchProvider_spec cfg st today fetchRes provider modelId with
    ⟨_, hres⟩ | h
  · exfalso
    rcases hres with ⟨f, hfo⟩ | hpn
    · rw [herr] at hfo
      simp at hfo
    · rw [herr] at hpn
      simp only [Except.error.injEq] at hpn
      exact hne provider hpn
  · exact h

theorem fetchProvider_miss_eq (cfg : ClientConfig) (st : ClientState)
    (today : Int) (fetchRes : String → FetchResult)
    (provider : String) (modelId : Option String)
    (ho : cfg.offline = false)
    (hb : isBuiltInProvider (effectiveProviderOf provider modelId) = true)
    (hmiss : ∀ e, (resolveCached st (effectiveProviderOf provider modelId)).1
        = some e → e.fetchedDate ≠ today) :
    fetchProvider cfg st today fetchRes provider modelId
      = fetchAndValidate cfg
          (resolveCached st (effectiveProviderOf provider modelId)).2 today
          fetchRes provider (effectiveProviderOf provider modelId)
          (resolveCached st (effectiveProviderOf provider modelId)).1 := by
  simp only [fetchProvider, ho, hb]
  cases hrc : resolveCached st (effectiveProviderOf provider modelId) with
  | mk cached st1 =>
    cases cached with
    | some e =>
      have hd : e.fetchedDate ≠ today := hmiss e (by rw [hrc])
      simp [hd]
    | none => simp

theorem fetchProvider_hit (cfg : ClientConfig) (st : ClientState)
    (today : Int) (fetchRes : String → FetchResult)
    (provider : String) (modelId : Option String) (e : CacheEntry)
    (ho : cfg.offline = false)
    (hb : isBuiltInProvider (effectiveProviderOf provider modelId) = true)
    (hhit : (resolveCached st (effectiveProviderOf provider modelId)).1 = some e)
    (hfresh : e.fetchedDate = today) :
    (fetchProvider cfg st today fetchRes provider modelId).fetched = false
    ∧ (fetchProvider cfg st today fetchRes provider modelId).result
        = .ok (mergeCustomData cfg e.data provider)
    ∧ (fetchProvider cfg st today fetchRes provider modelId).state
        = (resolveCached st (effectiveProviderOf provider modelId)).2 := by
  simp only [fetchProvider, ho, hb]
  cases hrc : resolveCached st (effectiveProviderOf provider modelId) with
  | mk cached st1 =>
    rw [hrc] at hhit
    simp only at hhit
    rw [hhit]
    simp [hfresh]

/-- C4: on every successful fetch of a provider file, `fetchProvider`
raises `ClockMismatch` — carrying the client date, the data's current
date, and the day difference — iff the fetched current date is strictly
in the future of today (by any amount) or strictly more than one day in
the past; a date equal to today or exactly one day old is accepted. -/
theorem fetchProvider_clockMismatch_iff (cfg : ClientConfig)
    (st : ClientState) (today : Int)
    (fetchRes : String → FetchResult) (provider : String)
    (modelId : Option String) (data : ProviderFile)
    (hf : (fetchProvider cfg st today fetchRes provider modelId).fetched = true)
    (hres : fetchRes (effectiveProviderOf provider modelId)
        = FetchResult.ok data) :
    ((fetchProvider cfg st today fetchRes provider modelId).result
        = .error (.clockMismatch today data.current.date
            (daysDifference today data.current.date))
      ↔ (today < data.current.date
          ∨ 1 < daysDifference today data.current.date))
    ∧ ((data.current.date = today ∨ data.current.date = today - 1) →
        ∃ f, (fetchProvider cfg st today fetchRes provider modelId).result
          = .ok f) := by
  obtain ⟨ho, hb, heq, hmiss⟩ :=
    fetchProvider_fetched cfg st today fetchRes provider modelId hf
  rw [heq]
  simp only [fetchAndValidate, hres]
  by_cases h1 : daysDifference today data.current.date < 0
  · rw [if_pos h1]
    refine ⟨⟨fun _ => ?_, fun _ => rfl⟩, ?_⟩
    · left
      simp only [daysDifference] at h1
      omega
    · intro hd
      exfalso
      simp only [daysDifference] at h1
      rcases hd with hd | hd <;> omega
  · rw [if_neg h1]
    by_cases h2 : 1 < daysDifference today data.current.date
    · rw [if_pos h2]
      refine ⟨⟨fun _ => Or.inr h2, fun _ => rfl⟩, ?_⟩
      intro hd
      exfalso
      simp only [daysDifference] at h2
      rcases hd with hd | hd <;> omega
    · rw [if_neg h2]
      refine ⟨⟨fun hcontra => ?_, fun habs => ?_⟩, fun _ => ⟨_, rfl⟩⟩
      · simp at hcontra
      · exfalso
        simp only [daysDifference] at h1 h2 habs
        rcases habs with h | h <;> omega

theorem fetchProvider_clockMismatch_iff_witness :
    (fetchProvider onlineCfg emptyClientState 10 c4Fetch "openai" none).result
      = .error (.clockMismatch 10 12 (daysDifference 10 12)) :=
  ((fetchProvider_clockMismatch_iff onlineCfg emptyClientState 10 c4Fetch
    "openai" none c4File rfl rfl).1).mpr (Or.inl (by decide))

/-- On a cache-miss day for a built-in provider, the single outbound
fetch is issued; if the response is non-ok (the *only* failure shape with
a recovery path in the source), `fetchProvider` answers from any existing
cache entry (even stale by fetch-date), merged with the custom overlay,
and propagates a `fetchFailed` error exactly when no cache entry exists.
This supports the refutation of C6: the fallback covers only the non-ok
branch, not thrown transport errors. -/
theorem fetchProvider_notOk_fallback (cfg : ClientConfig)
    (st : ClientState) (today : Int)
    (fetchRes : String → FetchResult) (provider : String)
    (modelId : Option String)
    (ho : cfg.offline = false)
    (hb : isBuiltInProvider (effectiveProviderOf provider modelId) = true)
    (hmiss : ∀ e, (resolveCached st (effectiveProviderOf provider modelId)).1
        = some e → e.fetchedDate ≠ today)
    (hfail : fetchRes (effectiveProviderOf provider modelId)
        = FetchResult.notOk) :
    ((fetchProvider cfg st today fetchRes provider modelId).fetched = true)
    ∧ (∀ e, (resolveCached st (effectiveProviderOf provider modelId)).1
          = some e →
        (fetchProvider cfg st today fetchRes provider modelId).result
          = .ok (mergeCustomData cfg e.data provider))
    ∧ ((resolveCached st (effectiveProviderOf provider modelId)).1 = none →
        (fetchProvider cfg st today fetchRes provider modelId).result
          = .error (.fetchFailed (effectiveProviderOf provider modelId))) := by
  have heq := fetchProvider_miss_eq cfg st today fetchRes provider modelId
    ho hb hmiss
  rw [heq]
  refine ⟨fetchAndValidate_fetched _ _ _ _ _ _ _, ?_, ?_⟩
  · intro e he
    rw [he]
    simp [fetchAndValidate, hfail]
  · intro hnone
    rw [hnone]
    simp [fetchAndValidate, hfail]

theorem fetchProvider_notOk_fallback_inst :
    (fetchProvider onlineCfg c6State 0 noFetch "openai" none).fetched = true
    ∧ (fetchProvider onlineCfg c6State 0 noFetch "openai" none).result
        = .ok (mergeCustomData onlineCfg c6StaleEntry.data "openai") := by
  have h := fetchProvider_notOk_fallback onlineCfg c6State 0 noFetch
    "openai" none rfl rfl ?hm rfl
  case hm =>
    intro e he
    have h0 : (resolveCached c6State (effectiveProviderOf "openai" none)).1
        = some c6StaleEntry := rfl
    rw [h0] at he
    rw [← Option.some.inj he]
    decide
  exact ⟨h.1, h.2.1 c6StaleEntry rfl⟩

/-- C6: refuted — a code bug.  The claim (and the source's own comment at
client.ts:286, "If fetch fails but we have cached data, use it") say a
failed fetch falls back to any existing cache entry, the failure
propagating only when no entry exists.  But `this.fetchFn(url)` at
client.ts:283 and `response.json()` at client.ts:294 are not wrapped in
try/catch, so a rejected fetch promise or a JSON-parse throw propagates
out of `fetchProviderData` *even when a cache entry exists*: only the
non-ok-response branch (client.ts:285-292) reaches the fallback.  Here
the state `c6State` holds a cache entry for `openai` (first conjunct),
yet a throwing fetch makes the lookup fail with the transport error
(second conjunct) instead of answering from cache, as the identically
cached non-ok run does (third conjunct). -/
theorem fetchProvider_thrown_code_bug :
    mapGet c6State.cache "openai" = some c6StaleEntry
    ∧ (fetchProvider onlineCfg c6State 0 thrownFetch "openai" none).result
        = .error (.transport "network down")
    ∧ (fetchProvider onlineCfg c6State 0 noFetch "openai" none).result
        = .ok (mergeCustomData onlineCfg c6StaleEntry.data "openai") :=
  ⟨rfl, rfl, rfl⟩

/-- C7 (amended): daily caching is keyed by the *effective* provider
(for `openrouter`, a lookup whose model id contains `/` consults the
`openrouter/{sub}` entry, not the `openrouter` one).  With that key:
a cache entry fetched today (in-memory, or loaded from the external cache
on an in-memory miss) suppresses the outbound fetch and answers from the
cached file; after one successful fetch, any same-day lookup resolving to
the same effective provider performs no fetch and leaves the client state
unchanged; and a lookup whose effective provider has no fresh entry
issues its own fetch. -/
theorem fetchProvider_daily_refresh (cfg : ClientConfig) (st : ClientState)
    (today : Int) (fetchRes fetchRes2 : String → FetchResult)
    (provider provider2 : String) (modelId modelId2 : Option String)
    (e : CacheEntry) (data f : ProviderFile) :
    (cfg.offline = false →
      isBuiltInProvider (effectiveProviderOf provider modelId) = true →
      ((mapGet st.cache (effectiveProviderOf provider modelId) = some e
          ∧ e.fetchedDate = today)
        ∨ (mapGet st.cache (effectiveProviderOf provider modelId) = none
          ∧ ∃ ext, st.extCache = some ext
            ∧ mapGet ext (effectiveProviderOf provider modelId) = some e
            ∧ e.fetchedDate = today)) →
      (fetchProvider cfg st today fetchRes provider modelId).fetched = false
      ∧ (fetchProvider cfg st today fetchRes provider modelId).result
          = .ok (mergeCustomData cfg e.data provider))
    ∧ (cfg.offline = false →
      isBuiltInProvider (effectiveProviderOf provider modelId) = true →
      (∀ e', (resolveCached st (effectiveProviderOf provider modelId)).1
          = some e' → e'.fetchedDate ≠ today) →
      (fetchProvider cfg st today fetchRes provider modelId).fetched = true)
    ∧ ((fetchProvider cfg st today fetchRes provider modelId).fetched = true →
      (fetchProvider cfg st today fetchRes provider modelId).result = .ok f →
      fetchRes (effectiveProviderOf provider modelId)
        = FetchResult.ok data →
      effectiveProviderOf provider2 modelId2
        = effectiveProviderOf provider modelId →
      (fetchProvider cfg
          (fetchProvider cfg st today fetchRes provider modelId).state today
          fetchRes2 provider2 modelId2).fetched = false
      ∧ (fetchProvider cfg
          (fetchProvider cfg st today fetchRes provider modelId).state today
          fetchRes2 provider2 modelId2).state
        = (fetchProvider cfg st today fetchRes provider modelId).state) := by
  refine ⟨?_, ?_, ?_⟩
  · intro ho hb hhit
    rcases hhit with ⟨hmem, hfresh⟩ | ⟨hm0, ext, hx, hg, hfresh⟩
    · have hrc := resolveCached_mem st (effectiveProviderOf provider modelId)
        e hmem
      have h := fetchProvider_hit cfg st today fetchRes provider modelId e
        ho hb (by rw [hrc]) hfresh
      exact ⟨h.1, h.2.1⟩
    · have hrc := resolveCached_ext st (effectiveProviderOf provider modelId)
        ext e hm0 hx hg
      have h := fetchProvider_hit cfg st today fetchRes provider modelId e
        ho hb (by rw [hrc]) hfresh
      exact ⟨h.1, h.2.1⟩
  · intro ho hb hmiss
    rw [fetchProvider_miss_eq cfg st today fetchRes provider modelId ho hb hmiss]
    exact fetchAndValidate_fetched _ _ _ _ _ _ _
  · intro hf hok hsucc heff2
    obtain ⟨ho, hb, heq, hmiss⟩ :=
      fetchProvider_fetched cfg st today fetchRes provider modelId hf
    have hstate : (fetchProvider cfg st today fetchRes provider modelId).state
        = { cache := mapSet
              (resolveCached st (effectiveProviderOf provider modelId)).2.cache
              (effectiveProviderOf provider modelId)
              { data := data, fetchedDate := today },
            extCache := (resolveCached st
              (effectiveProviderOf provider modelId)).2.extCache.map
              (fun ext => mapSet ext (effectiveProviderOf provider modelId)
                { data := data, fetchedDate := today }) } := by
      rw [heq] at hok ⊢
      simp only [fetchAndValidate, hsucc] at hok ⊢
      by_cases h1 : daysDifference today data.current.date < 0
      · rw [if_pos h1] at hok
        simp at hok
      · rw [if_neg h1] at hok ⊢
        by_cases h2 : 1 < daysDifference today data.current.date
        · rw [if_pos h2] at hok
          simp at hok
        · rw [if_neg h2]
    have hmem2 : mapGet (fetchProvider cfg st today fetchRes provider
        modelId).state.cache (effectiveProviderOf provider2 modelId2)
        = some { data := data, fetchedDate := today } := by
      rw [hstate, heff2]
      simp only
      rw [mapGet_mapSet, if_pos rfl]
    have hrc2 := resolveCached_mem
      (fetchProvider cfg st today fetchRes provider modelId).state
      (effectiveProviderOf provider2 modelId2)
      { data := data, fetchedDate := today } hmem2
    have hb2 : isBuiltInProvider (effectiveProviderOf provider2 modelId2)
        = true := by
      rw [heff2]
      exact hb
    have h := fetchProvider_hit cfg
      (fetchProvider cfg st today fetchRes provider modelId).state today
      fetchRes2 provider2 modelId2 { data := data, fetchedDate := today }
      ho hb2 (by rw [hrc2]) rfl
    refine ⟨h.1, ?_⟩
    rw [h.2.2, hrc2]

/-- C7 counterexample: the client holds a cache entry for the looked-up
provider (`openrouter`) whose stored fetch-date equals today, yet a
same-day lookup for that provider with a slash-containing model id still
issues an outbound fetch, because the cache is keyed by the effective
provider `openrouter/anthropic`. -/
theorem fetchProvider_daily_refresh_cex :
    mapGet orState.cache "openrouter" = some orEntry
    ∧ orEntry.fetchedDate = 0
    ∧ (fetchProvider onlineCfg orState 0 (fun _ => FetchResult.ok orFile) "openrouter"
        (some "anthropic/claude-3.5-sonnet")).fetched = true :=
  ⟨rfl, rfl, rfl⟩

theorem fetchProvider_daily_refresh_witness :
    (fetchProvider onlineCfg emptyClientState 0 c7Fetch "anthropic"
      none).fetched = true
    ∧ (fetchProvider onlineCfg
        (fetchProvider onlineCfg emptyClientState 0 c7Fetch "anthropic"
          none).state 0 noFetch "anthropic" none).fetched = false := by
  have h := fetchProvider_daily_refresh onlineCfg emptyClientState 0 c7Fetch
    noFetch "anthropic" "anthropic" none none
    { data := c7File, fetchedDate := 0 } c7File
    (mergeCustomData onlineCfg c7File "anthropic")
  exact ⟨h.2.1 rfl rfl (fun e' he' => Option.noConfusion he'),
    (h.2.2 rfl rfl rfl rfl).1⟩

theorem resolveCached_idem (st : ClientState) (eff : String) :
    resolveCached (resolveCached st eff).2 eff
      = ((resolveCached st eff).1, (resolveCached st eff).2) := by
  rcases hm : mapGet st.cache eff with _ | e
  · rcases hx : st.extCache with _ | ext
    · have hr : resolveCached st eff = (none, st) := by
        simp [resolveCached, hm, hx]
      rw [hr]
      simp [resolveCached, hm, hx]
    · rcases hg : mapGet ext eff with _ | e
      · have hr : resolveCached st eff = (none, st) := by
          simp [resolveCached, hm, hx, hg]
        rw [hr]
        simp [resolveCached, hm, hx, hg]
      · have hr := resolveCached_ext st eff ext e hm hx hg
        rw [hr]
        have hget : mapGet (mapSet st.cache eff e) eff = some e := by
          rw [mapGet_mapSet, if_pos rfl]
        simp [resolveCached, hget]
  · have hr := resolveCached_mem st eff e hm
    rw [hr]
    simp [resolveCached, hm]

theorem fetchAndValidate_thrown (cfg : ClientConfig) (st1 : ClientState)
    (today : Int) (fetchRes : String → FetchResult) (provider eff : String)
    (cached : Option CacheEntry) (msg : String)
    (hr : fetchRes eff = .thrown msg) :
    fetchAndValidate cfg st1 today fetchRes provider eff cached
      = { result := .error (.transport msg), state := st1,
          fetched := true } := by
  simp [fetchAndValidate, hr]

theorem fetchAndValidate_notOk_none (cfg : ClientConfig) (st1 : ClientState)
    (today : Int) (fetchRes : String → FetchResult)
    (provider eff : String) (hr : fetchRes eff = .notOk) :
    fetchAndValidate cfg st1 today fetchRes provider eff none
      = { result := .error (.fetchFailed eff), state := st1,
          fetched := true } := by
  simp [fetchAndValidate, hr]

theorem fetchAndValidate_notOk_some (cfg : ClientConfig) (st1 : ClientState)
    (today : Int) (fetchRes : String → FetchResult)
    (provider eff : String) (e : CacheEntry) (hr : fetchRes eff = .notOk) :
    fetchAndValidate cfg st1 today fetchRes provider eff (some e)
      = { result := .ok (mergeCustomData cfg e.data provider), state := st1,
          fetched := true } := by
  simp [fetchAndValidate, hr]

theorem fetchAndValidate_clock_lt (cfg : ClientConfig) (st1 : ClientState)
    (today : Int) (fetchRes : String → FetchResult)
    (provider eff : String) (cached : Option CacheEntry) (data : ProviderFile)
    (hr : fetchRes eff = FetchResult.ok data)
    (h1 : daysDifference today data.current.date < 0) :
    fetchAndValidate cfg st1 today fetchRes provider eff cached
      = { result := .error (.clockMismatch today data.current.date
            (daysDifference today data.current.date)),
          state := st1, fetched := true } := by
  simp [fetchAndValidate, hr, h1]

theorem fetchAndValidate_clock_gt (cfg : ClientConfig) (st1 : ClientState)
    (today : Int) (fetchRes : String → FetchResult)
    (provider eff : String) (cached : Option CacheEntry) (data : ProviderFile)
    (hr : fetchRes eff = FetchResult.ok data)
    (h1 : ¬daysDifference today data.current.date < 0)
    (h2 : 1 < daysDifference today data.current.date) :
    fetchAndValidate cfg st1 today fetchRes provider eff cached
      = { result := .error (.clockMismatch today data.current.date
            (daysDifference today data.current.date)),
          state := st1, fetched := true } := by
  simp [fetchAndValidate, hr, h1, h2]

theorem fetchAndValidate_ok (cfg : ClientConfig) (st1 : ClientState)
    (today : Int) (fetchRes : String → FetchResult)
    (provider eff : String) (cached : Option CacheEntry) (data : ProviderFile)
    (hr : fetchRes eff = FetchResult.ok data)
    (h1 : ¬daysDifference today data.current.date < 0)
    (h2 : ¬1 < daysDifference today data.current.date) :
    fetchAndValidate cfg st1 today fetchRes provider eff cached
      = { result := .ok (mergeCustomData cfg data provider),
          state := { cache := mapSet st1.cache eff
                       { data := data, fetchedDate := today },
                     extCache := st1.extCache.map (fun ext =>
                       mapSet ext eff { data := data, fetchedDate := today }) },
          fetched := true } := by
  simp [fetchAndValidate, hr, h1, h2]

/-- C10 (amended): when `fetchProvider` fails with `ClockMismatch`, the
rejected file is never stored: the external cache is unchanged, the
in-memory map is unchanged at every other key, and the entry (if any) now
held under the effective provider's key is a pre-existing one — taken from
the in-memory map or copied from the external cache — whose fetch-date is
not today.  Consequently an immediate same-day retry for the same
provider issues the fetch again rather than serving the rejected data.
(The unamended claim's "state is unchanged" fails: the in-memory map may
have been populated from the external cache before the fetch.) -/
theorem fetchProvider_clockMismatch_no_store (cfg : ClientConfig)
    (st : ClientState) (today : Int)
    (fetchRes fetchRes2 : String → FetchResult) (provider : String)
    (modelId : Option String) (cd dd df : Int)
    (herr : (fetchProvider cfg st today fetchRes provider modelId).result
        = .error (.clockMismatch cd dd df)) :
    ((fetchProvider cfg st today fetchRes provider modelId).state.extCache
        = st.extCache)
    ∧ (∀ k, k ≠ effectiveProviderOf provider modelId →
        mapGet (fetchProvider cfg st today fetchRes provider
          modelId).state.cache k = mapGet st.cache k)
    ∧ (∀ e, mapGet (fetchProvider cfg st today fetchRes provider
          modelId).state.cache (effectiveProviderOf provider modelId)
        = some e →
        (mapGet st.cache (effectiveProviderOf provider modelId) = some e
          ∨ ∃ ext, st.extCache = some ext
            ∧ mapGet ext (effectiveProviderOf provider modelId) = some e)
        ∧ e.fetchedDate ≠ today)
    ∧ ((fetchProvider cfg
        (fetchProvider cfg st today fetchRes provider modelId).state today
        fetchRes2 provider modelId).fetched = true) := by
  obtain ⟨ho, hb, heq, hmiss⟩ := fetchProvider_not_fetched_result cfg st
    today fetchRes provider modelId _ herr (fun p => by simp)
  have hstate : (fetchProvider cfg st today fetchRes provider modelId).state
      = (resolveCached st (effectiveProviderOf provider modelId)).2 := by
    rw [heq] at herr ⊢
    cases hr : fetchRes (effectiveProviderOf provider modelId) with
    | thrown msg =>
      exfalso
      rw [fetchAndValidate_thrown cfg _ today fetchRes provider _ _ msg hr]
        at herr
      simp at herr
    | notOk =>
      exfalso
      cases hc : (resolveCached st (effectiveProviderOf provider modelId)).1 with
      | some e =>
        rw [hc, fetchAndValidate_notOk_some cfg _ today fetchRes provider _ e hr]
          at herr
        simp at herr
      | none =>
        rw [hc, fetchAndValidate_notOk_none cfg _ today fetchRes provider _ hr]
          at herr
        simp at herr
    | ok data =>
      by_cases h1 : daysDifference today data.current.date < 0
      · rw [fetchAndValidate_clock_lt cfg _ today fetchRes provider _ _ data
          hr h1]
      · by_cases h2 : 1 < daysDifference today data.current.date
        · rw [fetchAndValidate_clock_gt cfg _ today fetchRes provider _ _ data
            hr h1 h2]
        · rw [fetchAndValidate_ok cfg _ today fetchRes provider _ _ data
            hr h1 h2] at herr
          simp at herr
  obtain ⟨hext, hother, hself, horigin⟩ :=
    resolveCached_state st (effectiveProviderOf provider modelId)
  refine ⟨by rw [hstate]; exact hext, ?_, ?_, ?_⟩
  · intro k hk
    rw [hstate]
    exact hother k hk
  · intro e he
    rw [hstate] at he
    rw [← hself] at he
    exact ⟨horigin e he, hmiss e he⟩
  · rw [hstate]
    have hmiss2 : ∀ e, (resolveCached
        (resolveCached st (effectiveProviderOf provider modelId)).2
        (effectiveProviderOf provider modelId)).1 = some e →
        e.fetchedDate ≠ today := by
      intro e he
      rw [resolveCached_idem] at he
      exact hmiss e he
    rw [fetchProvider_miss_eq cfg _ today fetchRes2 provider modelId
      ho hb hmiss2]
    exact fetchAndValidate_fetched _ _ _ _ _ _ _

/-- C10 counterexample: on a `ClockMismatch` failure the client state is
*not* always unchanged — here the in-memory cache map is written for the
provider (populated from the external cache before the rejected fetch). -/
theorem fetchProvider_clockMismatch_no_store_cex :
    (fetchProvider onlineCfg c10State 0 c10Fetch "openai" none).result
        = .error (.clockMismatch 0 5 (-5))
    ∧ mapGet c10State.cache "openai" = none
    ∧ mapGet (fetchProvider onlineCfg c10State 0 c10Fetch "openai"
        none).state.cache "openai" = some c10ExtEntry
    ∧ (fetchProvider onlineCfg c10State 0 c10Fetch "openai" none).state.cache
        ≠ c10State.cache := by
  refine ⟨rfl, rfl, rfl, ?_⟩
  intro h
  have h2 : mapGet (fetchProvider onlineCfg c10State 0 c10Fetch "openai"
      none).state.cache "openai" = some c10ExtEntry := rfl
  rw [h] at h2
  have h3 : mapGet c10State.cache "openai" = none := rfl
  rw [h3] at h2
  exact Option.noConfusion h2

theorem fetchProvider_clockMismatch_no_store_witness :
    (fetchProvider onlineCfg
        (fetchProvider onlineCfg c10State 0 c10Fetch "openai" none).state 0
        c10Fetch "openai" none).fetched = true := by
  have herr : (fetchProvider onlineCfg c10State 0 c10Fetch "openai"
      none).result = .error (.clockMismatch 0 5 (-5)) := rfl
  exact (fetchProvider_clockMismatch_no_store onlineCfg c10State 0 c10Fetch
    c10Fetch "openai" none 0 5 (-5) herr).2.2.2

theorem calculateCost_formula (cfg : ClientConfig) (st : ClientState)
    (today : Int) (fetchRes : String → FetchResult)
    (provider modelId : String) (tokens : TokenCounts)
    (r : PriceLookupResult) (st2 : ClientState) (inp outp : Rat)
    (h : getModelPricing cfg st today fetchRes provider modelId = (.ok r, st2))
    (hin : r.pricing.input = some inp) (hout : r.pricing.output = some outp)
    (hct : 0 ≤ tokens.cachedInputTokens.getD 0) :
    (calculateCost cfg st today fetchRes provider modelId tokens).1
      = .ok (claimCostResult tokens r inp outp) := by
  simp only [calculateCost, h, hin, hout, claimCostResult, claimInputCost]
  rcases hc : r.pricing.cached with _ | cp
  · simp only [hc]
  · simp only [hc, Option.isSome_some, Bool.and_true]
    by_cases h0 : 0 < tokens.cachedInputTokens.getD 0
    · simp only [h0, decide_eq_true_eq, if_pos h0]
      simp [h0]
    · have hz : tokens.cachedInputTokens.getD 0 = 0 :=
        le_antisymm (not_lt.mp h0) hct
      simp only [h0, hz]
      norm_num

/-- C3: for a resolved record with defined input and output per-million
prices and non-negative cached token count, `calculateCost` returns
inputCost = ((inputTokens − cachedInputTokens)/1M)·input +
(cachedInputTokens/1M)·(cached price if present, else input price),
outputCost = (outputTokens/1M)·output, totalCost their sum, and
usedCachedPricing = true iff cachedInputTokens > 0 and the record has a
cached price; in particular with input $3/M, output $15/M, cached
$0.30/M, 1,000,000 input tokens and 800,000 cached input tokens the input
cost is $0.84 (= 21/25) with usedCachedPricing = true. -/
theorem calculateCost_cost_math (cfg : ClientConfig) (st : ClientState)
    (today : Int) (fetchRes : String → FetchResult)
    (provider modelId : String) (tokens : TokenCounts)
    (r : PriceLookupResult) (st2 : ClientState) (inp outp : Rat)
    (h : getModelPricing cfg st today fetchRes provider modelId = (.ok r, st2))
    (hin : r.pricing.input = some inp) (hout : r.pricing.output = some outp)
    (hct : 0 ≤ tokens.cachedInputTokens.getD 0) :
    ((calculateCost cfg st today fetchRes provider modelId tokens).1
      = .ok (claimCostResult tokens r inp outp))
    ∧ (∀ res st3,
        calculateCost cfg st today fetchRes provider modelId tokens
          = (.ok res, st3) →
        (res.usedCachedPricing = true
          ↔ 0 < tokens.cachedInputTokens.getD 0
            ∧ r.pricing.cached.isSome = true)
        ∧ res.totalCost = res.inputCost + res.outputCost)
    ∧ ((calculateCost c3Cfg emptyClientState 0 noFetch "prov" "sonnet"
        c3Tokens).1
      = .ok { inputCost := 21/25, outputCost := 0, totalCost := 21/25,
              usedCachedPricing := true, date := 0, stale := false }) := by
  have hform := calculateCost_formula cfg st today fetchRes provider modelId
    tokens r st2 inp outp h hin hout hct
  refine ⟨hform, ?_, ?_⟩
  · intro res st3 hres
    have hres1 : (calculateCost cfg st today fetchRes provider modelId
        tokens).1 = .ok res := by rw [hres]
    rw [hform] at hres1
    have hr2 : claimCostResult tokens r inp outp = res := Except.ok.inj hres1
    rw [← hr2]
    constructor
    · simp [claimCostResult]
    · simp [claimCostResult]
  · have hconc := calculateCost_formula c3Cfg emptyClientState 0 noFetch
      "prov" "sonnet" c3Tokens c3LookupRes emptyClientState 3 15 rfl rfl rfl
      (by decide)
    rw [hconc]
    congr 1
    simp only [claimCostResult, claimInputCost, c3Tokens, c3LookupRes,
      c3Pricing]
    norm_num

theorem calculateCost_cost_math_witness :
    (calculateCost c3Cfg emptyClientState 0 noFetch "prov" "sonnet"
      c3Tokens).1 = .ok (claimCostResult c3Tokens c3LookupRes 3 15) :=
  (calculateCost_cost_math c3Cfg emptyClientState 0 noFetch "prov" "sonnet"
    c3Tokens c3LookupRes emptyClientState 3 15 rfl rfl rfl (by decide)).1
